import Mathlib

/-!
# RenameDisk: hookable property dictionary and driver splice

A shallow embedding of `Dictionary.cpp` / `Dictionary.h` (the hookable
`Dictionary` and its private `Callback` class) and of `RenameDisk.cpp`
(`fixModel`, `hookProperties`, `unhookProperties`, `getTargetService`,
`NewIOBlockStorageDriver::probe/start/stop`).

Conventions of the embedding.

* A C pointer that may be `NULL` is an `Option`; `none` is `NULL`.
* A C string is the list of its characters before the terminating NUL.
* An `OSSymbol` is a uniqued string, so pointer equality of symbols is
  equality of their text.
* The libkern `OSDictionary` is an association list with unique keys, kept
  in insertion order; `setObject` refuses a `NULL` key or object and
  otherwise succeeds (growth of its storage is taken to succeed).
* Every allocation the source checks is decided by a field of `Host`.
* Calls into the service tree that the driver only triggers (`close`,
  `stop`, `start`, `terminate`, the superclass methods) are recorded in a
  list of `HostCall`s, in program order.
* Retain counts are treated in the namespace `Counted`: the hooked
  `setObject` and `fixModel` on pointers with an address, giving the list of
  `RefEvent`s they perform; `counted_setObject_refines` relates this to the
  embedding on objects.
-/

namespace RenameDisk

/-! ## Host objects -/

/-- Characters of a C string, the terminating NUL excluded. -/
abbrev CString := List Char

/-- Uniqued string used as a dictionary key. -/
abbrev OSSymbol := String

/-- The objects a property can hold, by dynamic type: `string` stands for
every object on which `OSDynamicCast(OSString, ·)` succeeds, `other` for
every object on which it yields `NULL`. -/
inductive OSObject where
  | string (cstr : CString)
  | other (tag : Nat)
  deriving DecidableEq, Repr

/-- An `OSObject *` used as callback context: its address and whether
`OSDynamicCast(NewIOBlockStorageDriver, ·)` succeeds on it. -/
structure OSObjectRef where
  addr : Nat
  isNewIOBlockStorageDriver : Bool
  deriving DecidableEq, Repr

/-- Outcome of every allocation the source checks, for the duration of one
call. `true` means the allocation succeeds. -/
structure Host where
  /-- Whether `IOMalloc(size)` returns a buffer. -/
  IOMalloc : Nat → Bool
  /-- Whether `OSString::withCString` returns a string. -/
  OSString_withCString : Bool
  /-- Whether `OSSymbol::withCStringNoCopy(name)` returns a symbol. -/
  OSSymbol_withCStringNoCopy : String → Bool
  /-- Whether `OSTypeAlloc(Callback)` returns an instance. -/
  OSTypeAlloc_Callback : Bool
  /-- Whether `Callback::init` succeeds. -/
  Callback_init : Bool
  /-- Whether `OSTypeAlloc(Dictionary)` returns an instance. -/
  OSTypeAlloc_Dictionary : Bool
  /-- Whether `OSDictionary::withCapacity(1)` returns a dictionary. -/
  OSDictionary_withCapacity : Bool
  /-- Whether `Dictionary::initWithDictionary` succeeds. -/
  initWithDictionary : Bool
  /-- Whether `OSDictionary::withDictionary` returns a dictionary. -/
  OSDictionary_withDictionary : Bool

/-- The host in which no allocation fails. -/
def Host.ok : Host :=
  { IOMalloc := fun _ => true
    OSString_withCString := true
    OSSymbol_withCStringNoCopy := fun _ => true
    OSTypeAlloc_Callback := true
    Callback_init := true
    OSTypeAlloc_Dictionary := true
    OSDictionary_withCapacity := true
    initWithDictionary := true
    OSDictionary_withDictionary := true }

/-! ## `OSDictionary` (libkern) -/

/-- The plain map of libkern: entries in insertion order, keys unique. -/
structure OSDictionary (α : Type) where
  entries : List (OSSymbol × α)

namespace OSDictionary

variable {α : Type}

/-- Embedding of `OSDictionary::withCapacity`: the empty dictionary. -/
def empty : OSDictionary α := ⟨[]⟩

/-- Lookup in the entry array. -/
def lookup (aKey : OSSymbol) : List (OSSymbol × α) → Option α
  | [] => none
  | (k, v) :: es => if k = aKey then some v else lookup aKey es

/-- Replace the value of `aKey` where it stands, or append a new entry. -/
def insert (aKey : OSSymbol) (anObject : α) : List (OSSymbol × α) → List (OSSymbol × α)
  | [] => [(aKey, anObject)]
  | (k, v) :: es => if k = aKey then (k, anObject) :: es else (k, v) :: insert aKey anObject es

/-- Drop the entry of `aKey`, if there is one. -/
def erase (aKey : OSSymbol) : List (OSSymbol × α) → List (OSSymbol × α)
  | [] => []
  | (k, v) :: es => if k = aKey then es else (k, v) :: erase aKey es

/-- Embedding of `OSDictionary::getObject(const OSSymbol *)`. -/
def getObject (d : OSDictionary α) (aKey : Option OSSymbol) : Option α :=
  match aKey with
  | none => none
  | some k => lookup k d.entries

/-- Embedding of `OSDictionary::setObject(const OSSymbol *, const OSMetaClassBase *)`:
`false` and no change when the key or the object is `NULL`, `true` otherwise. -/
def setObject (d : OSDictionary α) (aKey : Option OSSymbol) (anObject : Option α) :
    Bool × OSDictionary α :=
  match aKey, anObject with
  | some k, some v => (true, ⟨insert k v d.entries⟩)
  | _, _ => (false, d)

/-- Embedding of `OSDictionary::removeObject(const OSSymbol *)`. -/
def removeObject (d : OSDictionary α) (aKey : Option OSSymbol) : OSDictionary α :=
  match aKey with
  | none => d
  | some k => ⟨erase k d.entries⟩

end OSDictionary

/-! ## `Callback` and `Dictionary` (Dictionary.cpp, Dictionary.h) -/

/-- The type `Dictionary::SetCallback`: a C function from the registered context, the
key and the proposed object to the object to store. The callback runs in the
host of the call that invokes it. -/
abbrev SetCallback := Host → OSObjectRef → OSSymbol → Option OSObject → Option OSObject

/-- The private class `Callback`: a function and its retained context. -/
structure Callback where
  f : SetCallback
  target : OSObjectRef

/-- Embedding of `Callback::withFunc`. -/
def Callback.withFunc (h : Host) (f : Option SetCallback) (target : Option OSObjectRef) :
    Option Callback :=
  match target, f with
  | some target, some f =>
    if h.OSTypeAlloc_Callback then
      if h.Callback_init then some { f := f, target := target } else none
    else none
  | _, _ => none

/-- Embedding of `Callback::invoke`. -/
def Callback.invoke (cb : Callback) (h : Host) (aKey : OSSymbol) (aValue : Option OSObject) :
    Option OSObject :=
  cb.f h cb.target aKey aValue

/-- One execution of `Callback::invoke`: which callback ran, on what. -/
structure Invocation where
  cb : Callback
  aKey : OSSymbol
  aValue : Option OSObject

/-- The class `Dictionary`: the entries inherited from `OSDictionary` and the
private side-table `hooks`. -/
structure Dictionary where
  entries : OSDictionary OSObject
  hooks : OSDictionary Callback

/-- What `Dictionary::setObject` leaves behind: its return value, the
dictionary afterwards and the callback invocations it made, in order. -/
structure SetResult where
  result : Bool
  dict : Dictionary
  invoked : List Invocation

namespace Dictionary

/-- Embedding of `Dictionary::setObject`. -/
def setObject (h : Host) (d : Dictionary) (aKey : Option OSSymbol)
    (anObject : Option OSObject) : SetResult :=
  match aKey with
  | none => { result := false, dict := d, invoked := [] }
  | some k =>
    match d.hooks.getObject (some k) with
    | some cb =>
      let anObject' := cb.invoke h k anObject
      let r := d.entries.setObject (some k) anObject'
      { result := r.1, dict := { d with entries := r.2 },
        invoked := [{ cb := cb, aKey := k, aValue := anObject }] }
    | none =>
      let r := d.entries.setObject (some k) anObject
      { result := r.1, dict := { d with entries := r.2 }, invoked := [] }

/-- Embedding of `Dictionary::removeObject`. -/
def removeObject (d : Dictionary) (aKey : Option OSSymbol) : Dictionary :=
  { d with entries := d.entries.removeObject aKey }

/-- Embedding of `Dictionary::addHook`: the return value and the dictionary
afterwards. -/
def addHook (h : Host) (d : Dictionary) (aKey : Option OSSymbol)
    (target : Option OSObjectRef) (cb : Option SetCallback) : Bool × Dictionary :=
  match aKey with
  | none => (false, d)
  | some k =>
    match Callback.withFunc h cb target with
    | some c =>
      let r := d.hooks.setObject (some k) (some c)
      (r.1, { d with hooks := r.2 })
    | none => (false, d)

/-- Embedding of `Dictionary::removeHook`. -/
def removeHook (d : Dictionary) (aKey : Option OSSymbol) : Dictionary :=
  match aKey with
  | none => d
  | some k => { d with hooks := d.hooks.removeObject (some k) }

end Dictionary

/-! ## C library calls used by `fixModel` -/

/-- Embedding of `strlen`. -/
def strlen (s : CString) : Nat := s.length

/-- Embedding of `strncmp(a, b, n)`, up to the sign of the result: `0` when
the first `n` characters agree (or both strings end before that), otherwise
the sign of the first difference, the end of a string counting as the
smallest character. -/
def strncmp : CString → CString → Nat → Int
  | _, _, 0 => 0
  | [], [], _ + 1 => 0
  | [], _ :: _, _ + 1 => -1
  | _ :: _, [], _ + 1 => 1
  | a :: as, b :: bs, n + 1 =>
    if a = b then strncmp as bs n else if a.toNat < b.toNat then -1 else 1

/-- Largest value of a C `int`. -/
def INT_MAX : Int := 2147483647

/-- The value a C `int` holds after an arithmetic result `x` (32-bit two's
complement). -/
def toInt32 (x : Int) : Int := (x + 2147483648) % 4294967296 - 2147483648

/-- Conversion of an `int` to the 64-bit unsigned `vm_size_t` / `size_t`. -/
def toSizeT (x : Int) : Nat := (x % 18446744073709551616).toNat

/-- The text produced by the format `"%s (%s)"`. -/
def format (a b : CString) : CString := a ++ " (".toList ++ b ++ ")".toList

/-- Return value of `snprintf(NULL, 0, ...)` for the output text `out`: its
length when that fits in an `int`, a negative value otherwise. -/
def snprintfSize (out : CString) : Int :=
  if (out.length : Int) ≤ INT_MAX then (out.length : Int) else -1

/-- The string `snprintf(buffer, size, ...)` leaves in `buffer` for the
output text `out`: at most `size - 1` characters. -/
def snprintf (size : Nat) (out : CString) : CString := out.take (size - 1)

/-! ## RenameDisk.cpp -/

/-- The class name looked for in the provider chain. -/
def TARGET : String := "IOAHCIBlockStorageDriver"

/-- The property that is rewritten. -/
def MODEL : String := "Model"

/-- The text put in front of the model. -/
def PREFIX : CString := "APPLE SSD".toList

/-- The hook `fixModel`. -/
def fixModel : SetCallback := fun h _target _aKey anObject =>
  let result := anObject
  match anObject with
  | some (.string realModelCStr) =>
    if strncmp PREFIX realModelCStr (strlen PREFIX) ≠ 0 then
      let required := snprintfSize (format PREFIX realModelCStr)
      if required ≥ 0 then
        let required := toInt32 (required + 1)
        if h.IOMalloc (toSizeT required) then
          let buffer := snprintf (toSizeT required) (format PREFIX realModelCStr)
          let newModel : Option OSObject :=
            if h.OSString_withCString then some (.string buffer) else none
          newModel
        else result
      else result
    else result
  | _ => result

/-- The dynamic type of an `OSDictionary *`: either a plain libkern
dictionary or a `Dictionary`. -/
inductive PropertyTable where
  | plain (d : OSDictionary OSObject)
  | hooked (d : Dictionary)

/-- The entries seen through the `OSDictionary` base class. -/
def PropertyTable.entries : PropertyTable → OSDictionary OSObject
  | .plain d => d
  | .hooked d => d.entries

/-- Embedding of `OSDynamicCast(Dictionary, ·)`. -/
def PropertyTable.asDictionary : Option PropertyTable → Option Dictionary
  | some (.hooked d) => some d
  | _ => none

/-- What a `setObject` made through an `OSDictionary *` leaves behind: its
return value, the table afterwards and the callback invocations made. -/
structure TableSetResult where
  result : Bool
  table : PropertyTable
  invoked : List Invocation

/-- The virtual call `table->setObject(aKey, anObject)` on an
`OSDictionary *`: the libkern method on a plain dictionary, the override
`Dictionary::setObject` on a `Dictionary`. -/
def PropertyTable.setObject (h : Host) (table : PropertyTable) (aKey : Option OSSymbol)
    (anObject : Option OSObject) : TableSetResult :=
  match table with
  | .plain d =>
    let r := d.setObject aKey anObject
    { result := r.1, table := .plain r.2, invoked := [] }
  | .hooked d =>
    let r := d.setObject h aKey anObject
    { result := r.result, table := .hooked r.dict, invoked := r.invoked }

/-- Embedding of `Dictionary::withDictionary`. -/
def Dictionary.withDictionary (h : Host) (dict : Option PropertyTable) : Option Dictionary :=
  match dict with
  | none => none
  | some dict =>
    if h.OSTypeAlloc_Dictionary then
      let hooks : Option (OSDictionary Callback) :=
        if h.OSDictionary_withCapacity then some OSDictionary.empty else none
      match hooks with
      | none => none
      | some hooks =>
        if h.initWithDictionary then some { entries := dict.entries, hooks := hooks }
        else none
    else none

/-- Embedding of `OSDictionary::withDictionary`: a plain copy of the entries. -/
def OSDictionary.withDictionary (h : Host) (dict : PropertyTable) :
    Option (OSDictionary OSObject) :=
  if h.OSDictionary_withDictionary then some dict.entries else none

/-- Embedding of `OSSymbol::withCStringNoCopy`. -/
def OSSymbol.withCStringNoCopy (h : Host) (name : String) : Option OSSymbol :=
  if h.OSSymbol_withCStringNoCopy name then some name else none

/-- Status codes returned by the property actions. -/
inductive IOReturn where
  | kIOReturnSuccess
  | kIOReturnNoMemory
  | kIOReturnInternalError
  deriving DecidableEq, Repr

/-- The part of an `IOService` the property actions touch. -/
structure IOService where
  propertyTable : Option PropertyTable

/-- Embedding of `IOService::getPropertyTable`. -/
def IOService.getPropertyTable (s : IOService) : Option PropertyTable := s.propertyTable

/-- Embedding of `IOService::setPropertyTable`. -/
def IOService.setPropertyTable (_s : IOService) (dict : PropertyTable) : IOService :=
  { propertyTable := some dict }

/-- Embedding of `OSDynamicCast(NewIOBlockStorageDriver, target)`. -/
def asDriver (target : Option OSObjectRef) : Option OSObjectRef :=
  match target with
  | some t => if t.isNewIOBlockStorageDriver then some t else none
  | none => none

/-- Embedding of `hookProperties(target, arg0, ...)`: the status and the
service `arg0` afterwards. -/
def hookProperties (h : Host) (target : Option OSObjectRef) (arg0 : Option IOService) :
    IOReturn × Option IOService :=
  match asDriver target, arg0 with
  | some _, some tgt =>
    match tgt.getPropertyTable with
    | some cur =>
      let propTable : Option Dictionary :=
        match PropertyTable.asDictionary (some cur) with
        | some propTable => some propTable
        | none => Dictionary.withDictionary h (some cur)
      match propTable with
      | some propTable =>
        match OSSymbol.withCStringNoCopy h MODEL with
        | some model =>
          let propTable := (propTable.addHook h (some model) target (some fixModel)).2
          (.kIOReturnSuccess, some (tgt.setPropertyTable (.hooked propTable)))
        | none => (.kIOReturnNoMemory, some tgt)
      | none => (.kIOReturnNoMemory, some tgt)
    | none => (.kIOReturnInternalError, some tgt)
  | _, _ => (.kIOReturnInternalError, arg0)

/-- Embedding of `unhookProperties(target, arg0, ...)`: the status and the
service `arg0` afterwards. -/
def unhookProperties (h : Host) (target : Option OSObjectRef) (arg0 : Option IOService) :
    IOReturn × Option IOService :=
  match asDriver target, arg0 with
  | some _, some tgt =>
    match PropertyTable.asDictionary tgt.getPropertyTable with
    | some cur =>
      match OSDictionary.withDictionary h (.hooked cur) with
      | some newDict => (.kIOReturnSuccess, some (tgt.setPropertyTable (.plain newDict)))
      | none => (.kIOReturnSuccess, some tgt)
    | none => (.kIOReturnInternalError, some tgt)
  | _, _ => (.kIOReturnInternalError, arg0)

/-! ### The service tree -/

/-- Address of an `IOService` in the registry. -/
abbrev Node := Nat

/-- The service tree as the driver reads it. -/
structure Registry where
  /-- Result of `IOService::getProvider`. -/
  getProvider : Node → Option Node
  /-- Result of `IOService::getServiceRoot`. -/
  getServiceRoot : Node
  /-- Whether `getMetaClassWithName` finds a class of that name. -/
  getMetaClassWithName : String → Bool
  /-- Result of `checkMetaCast` of the class named `TARGET` on a node. -/
  checkMetaCast : Node → Bool
  /-- The property table held by each node. -/
  service : Node → IOService
  /-- Result of `provider->isOpen(client)`. -/
  isOpen : Node → Node → Bool

/-- Results of the host calls whose effect lies outside the driver. -/
structure Outcomes where
  /-- Whether `super::probe` returns a service. -/
  superProbe : Bool
  /-- Result of `super::start`. -/
  superStart : Bool
  /-- Result of `start` of a node other than the driver. -/
  start : Node → Bool
  /-- Result of `terminate` of a node. -/
  terminate : Node → Bool

/-- The calls the driver makes into the host, as they happen. -/
inductive HostCall where
  | close (provider client : Node)
  | stop (service provider : Node)
  | runPropertyAction (service : Node) (status : IOReturn)
  | start (service provider : Node) (result : Bool)
  | terminate (service : Node) (result : Bool)
  | superStart (provider : Option Node) (result : Bool)
  | superStop (provider : Option Node)
  deriving DecidableEq, Repr

/-- A finished driver entry point: its return value, the registry
afterwards and the host calls made. -/
structure Run (α : Type) where
  result : α
  registry : Registry
  calls : List HostCall

/-- The `while(p && p != root)` loop of `getTargetService`; `none` when the
fuel runs out before the loop ends. -/
def getTargetServiceLoop (r : Registry) (root : Node) : Nat → Option Node → Option (Option Node)
  | 0, _ => none
  | _ + 1, none => some none
  | fuel + 1, some p =>
    if p = root then some none
    else if r.checkMetaCast p then some (some p)
    else getTargetServiceLoop r root fuel (r.getProvider p)

/-- Embedding of `getTargetService(me)`; `none` when the fuel runs out. -/
def getTargetService (h : Host) (r : Registry) (fuel : Nat) (me : Node) :
    Option (Option Node) :=
  match OSSymbol.withCStringNoCopy h TARGET with
  | some tgtName =>
    if r.getMetaClassWithName tgtName then
      getTargetServiceLoop r r.getServiceRoot fuel (r.getProvider me)
    else some none
  | none => some none

/-- Embedding of `NewIOBlockStorageDriver::probe`: whether a service is
returned; `none` when the fuel runs out. -/
def NewIOBlockStorageDriver.probe (h : Host) (o : Outcomes) (r : Registry) (fuel : Nat)
    (me : Node) : Option Bool :=
  if o.superProbe then
    (getTargetService h r fuel me).map fun tgt => tgt.isSome
  else some false

/-- The `while(p != tgt)` loop of `start`: the `terminate` calls made.
`none` when the fuel runs out or `p` becomes `NULL` before `tgt` is reached. -/
def terminateLoop (o : Outcomes) (r : Registry) (tgt : Node) :
    Nat → Option Node → Option (List HostCall)
  | 0, _ => none
  | fuel + 1, p =>
    if p = some tgt then some []
    else
      match p with
      | none => none
      | some p =>
        let pParent := r.getProvider p
        (terminateLoop o r tgt fuel pParent).map fun cs =>
          HostCall.terminate p (o.terminate p) :: cs

/-- The registry after a property action has run on `tgt`. -/
def Registry.setService (r : Registry) (tgt : Node) (s : Option IOService) : Registry :=
  match s with
  | some s => { r with service := fun n => if n = tgt then s else r.service n }
  | none => r

/-- Embedding of `NewIOBlockStorageDriver::start(provider)` on the driver
`me`; `none` when the fuel runs out or a `NULL` service is dereferenced. -/
def NewIOBlockStorageDriver.start (h : Host) (o : Outcomes) (r : Registry) (fuel : Nat) (me : Node)
    (provider : Option Node) : Option (Run Bool) :=
  match getTargetService h r fuel me with
  | none => none
  | some (some tgt) =>
    if (PropertyTable.asDictionary (r.service tgt).getPropertyTable).isSome then
      some { result := o.superStart, registry := r,
             calls := [.superStart provider o.superStart] }
    else
      match r.getProvider tgt with
      | none => none
      | some tgtParent =>
        let closing : List HostCall :=
          if r.isOpen tgtParent tgt then [.close tgtParent tgt] else []
        let action := hookProperties h (some ⟨me, true⟩) (some (r.service tgt))
        let result := o.start tgt
        match terminateLoop o r tgt fuel provider with
        | none => none
        | some terminated =>
          some { result := false, registry := r.setService tgt action.2,
                 calls := closing ++ [.stop tgt tgtParent, .runPropertyAction tgt action.1,
                                      .start tgt tgtParent result] ++ terminated }
  | some none =>
    some { result := o.superStart, registry := r,
           calls := [.superStart provider o.superStart] }

/-- Embedding of `NewIOBlockStorageDriver::stop(provider)` on the driver
`me`; `none` when the fuel runs out. -/
def NewIOBlockStorageDriver.stop (h : Host) (r : Registry) (fuel : Nat) (me : Node)
    (provider : Option Node) : Option (Run Unit) :=
  match getTargetService h r fuel me with
  | none => none
  | some (some tgt) =>
    let action := unhookProperties h (some ⟨me, true⟩) (some (r.service tgt))
    some { result := (), registry := r.setService tgt action.2,
           calls := [.runPropertyAction tgt action.1, .superStop provider] }
  | some none => some { result := (), registry := r, calls := [.superStop provider] }

/-! ## Retain counts as explicit state

The hooked branch of `Dictionary::setObject` and `fixModel` once more, this
time on object pointers with an address, each function also giving the
`retain`, `release` and object creations it performs, in program order. -/

/-- Address of an object in memory. -/
abbrev Addr := Nat

/-- A non-`NULL` object pointer: the address and the object found there. -/
structure Pointer where
  addr : Addr
  object : OSObject
  deriving DecidableEq, Repr

/-- A change of a retain count: a new object appears with retain count 1, or
an object is retained or released. -/
inductive RefEvent where
  | create (a : Addr)
  | retain (a : Addr)
  | release (a : Addr)
  deriving DecidableEq, Repr

/-- The retain count found at every address. -/
abbrev RetainCounts := Addr → Int

/-- The retain counts after one event. -/
def RefEvent.apply (c : RetainCounts) : RefEvent → RetainCounts
  | .create a => fun b => if b = a then 1 else c b
  | .retain a => fun b => if b = a then c b + 1 else c b
  | .release a => fun b => if b = a then c b - 1 else c b

/-- The retain counts after a list of events, first event first. -/
def RetainCounts.after (c : RetainCounts) (events : List RefEvent) : RetainCounts :=
  events.foldl RefEvent.apply c

/-- Every `release` of the list is made on an object whose retain count is
positive at that moment. -/
def ReleasesLive : RetainCounts → List RefEvent → Prop
  | _, [] => True
  | c, e :: es => (∀ a, e = .release a → 0 < c a) ∧ ReleasesLive (RefEvent.apply c e) es

namespace Counted

/-- Embedding of `OSSafeRelease(p)`: a release unless `p` is `NULL`. -/
def OSSafeRelease (p : Option Pointer) : List RefEvent :=
  match p with
  | some p => [.release p.addr]
  | none => []

/-- Embedding of `fixModel` on pointers: the pointer returned and the events
made. `fresh` is the address at which `OSString::withCString` creates its
string. -/
def fixModel (h : Host) (fresh : Addr) (_target : OSObjectRef) (_aKey : OSSymbol)
    (anObject : Option Pointer) : Option Pointer × List RefEvent :=
  let result := anObject
  let retained : List RefEvent :=
    match result with
    | some p => [.retain p.addr]
    | none => []
  match anObject with
  | some ⟨_, .string realModelCStr⟩ =>
    if strncmp PREFIX realModelCStr (strlen PREFIX) ≠ 0 then
      let required := snprintfSize (format PREFIX realModelCStr)
      if required ≥ 0 then
        let required := toInt32 (required + 1)
        if h.IOMalloc (toSizeT required) then
          let buffer := snprintf (toSizeT required) (format PREFIX realModelCStr)
          let newModel : Option Pointer × List RefEvent :=
            if h.OSString_withCString then
              (some { addr := fresh, object := .string buffer }, [.create fresh])
            else (none, [])
          (newModel.1, retained ++ newModel.2 ++ OSSafeRelease result)
        else (result, retained)
      else (result, retained)
    else (result, retained)
  | _ => (result, retained)

/-- The type `Dictionary::SetCallback` on pointers: the callback also gives
the events it makes, and is told where an object it creates will lie. -/
abbrev SetCallback :=
  Host → Addr → OSObjectRef → OSSymbol → Option Pointer → Option Pointer × List RefEvent

/-- The class `Callback` as an object in memory. -/
structure Callback where
  addr : Addr
  f : SetCallback
  target : OSObjectRef

/-- The class `Dictionary` with pointers as values. -/
structure Dictionary where
  entries : OSDictionary Pointer
  hooks : OSDictionary Callback

/-- What a counted `setObject` leaves behind: its return value, the
dictionary afterwards and the events made. -/
structure SetResult where
  result : Bool
  dict : Dictionary
  events : List RefEvent

/-- Embedding of `OSDictionary::setObject` with its reference counting: the
object stored is retained and the object it replaces, if any, is released. -/
def OSDictionary.setObject (d : OSDictionary Pointer) (aKey : Option OSSymbol)
    (anObject : Option Pointer) : Bool × OSDictionary Pointer × List RefEvent :=
  match aKey, anObject with
  | some k, some p =>
    (true, ⟨RenameDisk.OSDictionary.insert k p d.entries⟩,
      [.retain p.addr] ++ OSSafeRelease (RenameDisk.OSDictionary.lookup k d.entries))
  | _, _ => (false, d, [])

/-- Embedding of `Dictionary::setObject` with its reference counting. -/
def Dictionary.setObject (h : Host) (fresh : Addr) (d : Dictionary) (aKey : Option OSSymbol)
    (anObject : Option Pointer) : SetResult :=
  match aKey with
  | none => { result := false, dict := d, events := [] }
  | some k =>
    match RenameDisk.OSDictionary.getObject d.hooks (some k) with
    | some cb =>
      let invoked := cb.f h fresh cb.target k anObject
      let r := Counted.OSDictionary.setObject d.entries (some k) invoked.1
      { result := r.1, dict := { d with entries := r.2.1 },
        events := [.retain cb.addr] ++ invoked.2 ++ [.release cb.addr] ++ r.2.2
                    ++ OSSafeRelease invoked.1 }
    | none =>
      let r := Counted.OSDictionary.setObject d.entries (some k) anObject
      { result := r.1, dict := { d with entries := r.2.1 }, events := r.2.2 }

end Counted

/-! ## Hypotheses and inputs used in the statements -/

/-- No allocation fails in the host `h`. -/
structure Host.NoAllocFailure (h : Host) : Prop where
  IOMalloc : ∀ n, h.IOMalloc n = true
  OSString_withCString : h.OSString_withCString = true
  OSSymbol_withCStringNoCopy : ∀ name, h.OSSymbol_withCStringNoCopy name = true
  OSTypeAlloc_Callback : h.OSTypeAlloc_Callback = true
  Callback_init : h.Callback_init = true
  OSTypeAlloc_Dictionary : h.OSTypeAlloc_Dictionary = true
  OSDictionary_withCapacity : h.OSDictionary_withCapacity = true
  initWithDictionary : h.initWithDictionary = true
  OSDictionary_withDictionary : h.OSDictionary_withDictionary = true

/-- The list `c` is the provider chain that starts at the pointer `p`: its
nodes in the order `getProvider` reaches them, up to the node whose provider
is `NULL`. -/
def Registry.IsChain (r : Registry) : Option Node → List Node → Prop
  | p, [] => p = none
  | p, n :: ns => p = some n ∧ r.IsChain (r.getProvider n) ns

/-- The node `getTargetService` is meant to find on the chain `c`: the first
one of the target class among those before the service root. -/
def firstTarget (r : Registry) (c : List Node) : Option Node :=
  (c.takeWhile fun p => p != r.getServiceRoot).find? r.checkMetaCast

/-- The keys of a dictionary are pairwise distinct, as libkern keeps them. -/
def OSDictionary.WF {α : Type} (d : OSDictionary α) : Prop :=
  (d.entries.map Prod.fst).Nodup

/-- The registrations a side-table holds for the key `k`. -/
def registrations (k : OSSymbol) (hooks : OSDictionary Callback) : List (OSSymbol × Callback) :=
  hooks.entries.filter fun e => e.1 == k

/-- The nodes `start` is meant to terminate on the chain `c`: those before
the target, in chain order. -/
def belowTarget (tgt : Node) (c : List Node) : List Node :=
  c.takeWhile fun p => p != tgt

/-- One `terminate` call per node of `nodes`, in order, each with the result
the host gives for that node. -/
def terminateCalls (o : Outcomes) (nodes : List Node) : List HostCall :=
  nodes.map fun n => HostCall.terminate n (o.terminate n)

/-- A model string of 2147483636 characters: with the 12 characters the
rewrite adds, one more than `INT_MAX`. -/
def hugeModel : CString := List.replicate 2147483636 'x'

/-- The driver object used in the examples. -/
def driver : OSObjectRef := { addr := 1, isNewIOBlockStorageDriver := true }

/-- A hookable dictionary holding `Model = "ST1000"` with `fixModel`
registered on `Model`. -/
def hookedModel : Dictionary :=
  { entries := ⟨[("Model", .string "ST1000".toList)]⟩
    hooks := ⟨[("Model", { f := fixModel, target := driver })]⟩ }

/-- A callback that hands back the proposed object. -/
def keepValue : SetCallback := fun _ _ _ anObject => anObject

/-- A hookable dictionary holding `Model = "ST1000"` with no hook, as
`Dictionary::withDictionary` creates it. -/
def unhookedModel : Dictionary :=
  { entries := ⟨[("Model", .string "ST1000".toList)]⟩, hooks := ⟨[]⟩ }

/-- The dictionary `unhookedModel` with `keepValue` registered on `Model`. -/
def keepModel : Dictionary :=
  { entries := ⟨[("Model", .string "ST1000".toList)]⟩
    hooks := ⟨[("Model", { f := keepValue, target := driver })]⟩ }

/-- A service whose property table is the plain map `Model = "ST1000"`. -/
def plainTarget : IOService :=
  { propertyTable := some (.plain ⟨[("Model", .string "ST1000".toList)]⟩) }

/-- A service whose property table is already the hookable dictionary. -/
def hookedTarget : IOService := { propertyTable := some (.hooked hookedModel) }

/-- The tree `driver 1 → 2 → 3 (target class) → 4 (root)`, the target
holding the property table of `tgt` and being open on the root. -/
def sampleRegistry (tgt : IOService) : Registry :=
  { getProvider := fun n =>
      if n = 1 then some 2 else if n = 2 then some 3 else if n = 3 then some 4 else none
    getServiceRoot := 4
    getMetaClassWithName := fun name => name == TARGET
    checkMetaCast := fun n => n == 3
    service := fun n => if n = 3 then tgt else { propertyTable := some (.plain ⟨[]⟩) }
    isOpen := fun p c => p == 4 && c == 3 }

/-- Host outcomes in which every call reports success. -/
def Outcomes.allTrue : Outcomes :=
  { superProbe := true, superStart := true, start := fun _ => true, terminate := fun _ => true }

/-- The tree `driver 1 → 2 → 5 → 3 (target class) → 4 (root)`, the target
holding the plain table `Model = "ST1000"`. -/
def longRegistry : Registry :=
  { getProvider := fun n =>
      if n = 1 then some 2 else if n = 2 then some 5 else if n = 5 then some 3
      else if n = 3 then some 4 else none
    getServiceRoot := 4
    getMetaClassWithName := fun name => name == TARGET
    checkMetaCast := fun n => n == 3
    service := fun n => if n = 3 then plainTarget else { propertyTable := some (.plain ⟨[]⟩) }
    isOpen := fun _ _ => false }

/-- Host outcomes in which every `terminate` reports failure. -/
def Outcomes.terminateFails : Outcomes :=
  { superProbe := true, superStart := true, start := fun _ => true,
    terminate := fun _ => false }

/-- A counted dictionary holding the object `old` under `Model`, with
`fixModel` registered on `Model` through a `Callback` at address `20`. -/
def countedModel (old : Pointer) : Counted.Dictionary :=
  { entries := ⟨[("Model", old)]⟩
    hooks := ⟨[("Model", { addr := 20, f := Counted.fixModel, target := driver })]⟩ }

/-- Retain counts in which the objects at `10`, `11` and `20` have one
reference each and no other address holds an object. -/
def sampleCounts : RetainCounts :=
  fun a => if a = 10 then 1 else if a = 11 then 1 else if a = 20 then 1 else 0

end RenameDisk

/-! # Properties -/

namespace RenameDisk

/-! ## Auxiliary facts -/

theorem lookup_insert_self {α : Type} (k : OSSymbol) (v : α) (es : List (OSSymbol × α)) :
    OSDictionary.lookup k (OSDictionary.insert k v es) = some v := by
  induction es with
  | nil => simp [OSDictionary.insert, OSDictionary.lookup]
  | cons e es ih =>
    obtain ⟨k', v'⟩ := e
    by_cases hk : k' = k
    · simp [OSDictionary.insert, OSDictionary.lookup, hk]
    · simp [OSDictionary.insert, OSDictionary.lookup, hk, ih]

theorem strncmp_eq_zero_iff (p s : CString) : strncmp p s (strlen p) = 0 ↔ p <+: s := by
  induction p generalizing s with
  | nil => simp [strlen, strncmp]
  | cons a as ih =>
    cases s with
    | nil => simp [strlen, strncmp]
    | cons b bs =>
      have ih' := ih bs
      simp only [strlen] at ih'
      by_cases hab : a = b
      · subst hab
        simp [strlen, strncmp, ih', List.cons_prefix_cons]
      · simp only [strlen, List.length_cons, strncmp, hab, if_false, List.cons_prefix_cons,
          false_and, iff_false]
        split <;> simp

theorem format_length (s : CString) : (format PREFIX s).length = s.length + 12 := by
  simp [format, PREFIX]

theorem format_eq (s : CString) :
    format PREFIX s = "APPLE SSD (".toList ++ s ++ ")".toList := by
  simp [format, PREFIX]

theorem PREFIX_prefix_format (s : CString) : PREFIX <+: format PREFIX s := by
  unfold format
  rw [List.append_assoc, List.append_assoc]
  exact List.prefix_append _ _

theorem fixModel_prefixed (h : Host) (target : OSObjectRef) (aKey : OSSymbol) (s : CString)
    (hp : PREFIX <+: s) :
    fixModel h target aKey (some (.string s)) = some (.string s) := by
  have h0 : strncmp PREFIX s (strlen PREFIX) = 0 := (strncmp_eq_zero_iff PREFIX s).2 hp
  simp [fixModel, h0]

theorem fixModel_not_string (h : Host) (target : OSObjectRef) (aKey : OSSymbol)
    (v : Option OSObject) (hv : ∀ s, v ≠ some (.string s)) :
    fixModel h target aKey v = v := by
  unfold fixModel
  split
  · exact absurd rfl (hv _)
  · rfl

theorem fixModel_overflow (h : Host) (target : OSObjectRef) (aKey : OSSymbol) (s : CString)
    (hp : ¬ PREFIX <+: s) (hlen : 2147483647 < s.length + 12) :
    fixModel h target aKey (some (.string s)) = some (.string s) := by
  have h0 : strncmp PREFIX s (strlen PREFIX) ≠ 0 :=
    fun e => hp ((strncmp_eq_zero_iff PREFIX s).1 e)
  have h1 : snprintfSize (format PREFIX s) = -1 := by
    unfold snprintfSize
    rw [format_length, if_neg]
    unfold INT_MAX
    omega
  simp [fixModel, h0, h1]

theorem fixModel_rewrite (h : Host) (target : OSObjectRef) (aKey : OSSymbol) (s : CString)
    (hp : ¬ PREFIX <+: s) (hlen : s.length + 12 ≤ 2147483647)
    (hm : ∀ n, h.IOMalloc n = true) :
    fixModel h target aKey (some (.string s)) =
      if h.OSString_withCString then some (.string (format PREFIX s)) else none := by
  have h0 : strncmp PREFIX s (strlen PREFIX) ≠ 0 :=
    fun e => hp ((strncmp_eq_zero_iff PREFIX s).1 e)
  have h1 : snprintfSize (format PREFIX s) = ((s.length + 12 : Nat) : Int) := by
    unfold snprintfSize
    rw [format_length, if_pos]
    unfold INT_MAX
    omega
  have h2 : s.length + 12 ≤ toSizeT (toInt32 (((s.length + 12 : Nat) : Int) + 1)) - 1 := by
    unfold toSizeT toInt32
    omega
  have h3 : snprintf (toSizeT (toInt32 (((s.length + 12 : Nat) : Int) + 1))) (format PREFIX s)
      = format PREFIX s := by
    unfold snprintf
    apply List.take_of_length_le
    rw [format_length]
    exact h2
  have h4 : (0 : Int) ≤ ((s.length + 12 : Nat) : Int) := Int.ofNat_nonneg _
  simp only [fixModel, h0, h1, h3, hm, ne_eq, not_false_eq_true, if_true, ge_iff_le, h4]

theorem fixModel_malloc_fail (h : Host) (target : OSObjectRef) (aKey : OSSymbol) (s : CString)
    (hm : ∀ n, h.IOMalloc n = false) :
    fixModel h target aKey (some (.string s)) = some (.string s) := by
  unfold fixModel
  dsimp only
  split_ifs with a b c
  all_goals first
    | (rw [hm] at c; exact absurd c (by decide))
    | rfl

theorem Host.ok_noAllocFailure : Host.ok.NoAllocFailure := by
  constructor <;> intros <;> rfl

theorem hugeModel_length : hugeModel.length = 2147483636 := List.length_replicate _ _

theorem hugeModel_not_prefixed : ¬ PREFIX <+: hugeModel := by
  rintro ⟨t, ht⟩
  have e : hugeModel = 'x' :: List.replicate 2147483635 'x' := List.replicate_succ ..
  rw [e] at ht
  exact absurd (List.cons.inj ht).1 (by decide)

/-! ## The hookable dictionary -/

theorem setObject_of_hook (h : Host) (d : Dictionary) (k : OSSymbol) (cb : Callback)
    (v : Option OSObject) (hk : d.hooks.getObject (some k) = some cb) :
    d.setObject h (some k) v
      = { result := (d.entries.setObject (some k) (cb.f h cb.target k v)).1
          dict := { d with entries := (d.entries.setObject (some k) (cb.f h cb.target k v)).2 }
          invoked := [{ cb := cb, aKey := k, aValue := v }] } := by
  simp only [Dictionary.setObject, hk, Callback.invoke]

theorem getObject_setObject_self {α : Type} (d : OSDictionary α) (k : OSSymbol) (w : α) :
    (d.setObject (some k) (some w)).1 = true
    ∧ (d.setObject (some k) (some w)).2.getObject (some k) = some w := by
  simp [OSDictionary.setObject, OSDictionary.getObject, lookup_insert_self]

/-- C1: when a callback `cb` (function and context) is registered for the key
`k`, `setObject(k, v)` invokes it exactly once, on `(k, v)`, hands what it
returned to the underlying map's `setObject` under `k`, whose outcome it
returns, leaves the side-table alone, and whenever the callback returned an
object `w`, a lookup of `k` afterwards gives `w`. -/
theorem setObject_hooked (h : Host) (d : Dictionary) (k : OSSymbol) (cb : Callback)
    (v : Option OSObject) (hk : d.hooks.getObject (some k) = some cb) :
    (d.setObject h (some k) v).invoked = [{ cb := cb, aKey := k, aValue := v }]
    ∧ (d.setObject h (some k) v).dict.entries
        = (d.entries.setObject (some k) (cb.f h cb.target k v)).2
    ∧ (d.setObject h (some k) v).result
        = (d.entries.setObject (some k) (cb.f h cb.target k v)).1
    ∧ (d.setObject h (some k) v).dict.hooks = d.hooks
    ∧ ∀ w, cb.f h cb.target k v = some w →
        (d.setObject h (some k) v).result = true
        ∧ (d.setObject h (some k) v).dict.entries.getObject (some k) = some w := by
  rw [setObject_of_hook h d k cb v hk]
  refine ⟨rfl, rfl, rfl, rfl, ?_⟩
  intro w hw
  simp only [hw]
  exact getObject_setObject_self d.entries k w

/-- Witness for C1: the dictionary with `fixModel` on `Model`, set to the
string `"WD10"`. -/
theorem setObject_hooked_witness :
    hookedModel.hooks.getObject (some "Model") = some { f := fixModel, target := driver }
    ∧ (hookedModel.setObject Host.ok (some "Model") (some (.string "WD10".toList))).invoked.length
        = 1
    ∧ (hookedModel.setObject Host.ok (some "Model")
        (some (.string "WD10".toList))).dict.entries.getObject (some "Model")
        = some (.string "APPLE SSD (WD10)".toList) :=
  have hk : hookedModel.hooks.getObject (some "Model")
      = some { f := fixModel, target := driver } := by
    simp [hookedModel, OSDictionary.getObject, OSDictionary.lookup]
  have hC := setObject_hooked Host.ok hookedModel "Model" _ (some (.string "WD10".toList)) hk
  ⟨hk, by rw [hC.1]; rfl, (hC.2.2.2.2 (.string "APPLE SSD (WD10)".toList) (by decide)).2⟩

/-- C2: for a key `k` with no callback registered and an object `v`,
`setObject(k, v)` invokes no callback, does to the entries exactly what the
underlying map's `setObject(k, v)` does and returns its result, which is
`true`, leaves the side-table alone, and a lookup of `k` afterwards gives
`v`. -/
theorem setObject_unhooked (h : Host) (d : Dictionary) (k : OSSymbol) (v : OSObject)
    (hk : d.hooks.getObject (some k) = none) :
    (d.setObject h (some k) (some v)).invoked = []
    ∧ (d.setObject h (some k) (some v)).dict.entries
        = (d.entries.setObject (some k) (some v)).2
    ∧ (d.setObject h (some k) (some v)).result = (d.entries.setObject (some k) (some v)).1
    ∧ (d.setObject h (some k) (some v)).result = true
    ∧ (d.setObject h (some k) (some v)).dict.hooks = d.hooks
    ∧ (d.setObject h (some k) (some v)).dict.entries.getObject (some k) = some v := by
  refine ⟨?_, ?_, ?_, ?_, ?_, ?_⟩ <;> simp only [Dictionary.setObject, hk] <;>
    simp [OSDictionary.setObject, OSDictionary.getObject, lookup_insert_self]

/-- Witness for C2: the key `Revision` has no callback in the dictionary that
hooks `Model`. -/
theorem setObject_unhooked_witness :
    hookedModel.hooks.getObject (some "Revision") = none
    ∧ (hookedModel.setObject Host.ok (some "Revision")
        (some (.string "1.0".toList))).dict.entries.getObject (some "Revision")
        = some (.string "1.0".toList) :=
  have hk : hookedModel.hooks.getObject (some "Revision") = none := by
    simp [hookedModel, OSDictionary.getObject, OSDictionary.lookup]
  ⟨hk, (setObject_unhooked Host.ok hookedModel "Revision" (.string "1.0".toList) hk).2.2.2.2.2⟩

/-! ## `fixModel` -/

/-- Counterexample to C3 as stated: no allocation fails, the string does not
start with `APPLE SSD`, and `fixModel` returns it unchanged instead of the
parenthesised rewrite, so the result does not start with `APPLE SSD`. -/
theorem fixModel_string_counterexample :
    Host.ok.NoAllocFailure
    ∧ ¬ PREFIX <+: hugeModel
    ∧ fixModel Host.ok driver MODEL (some (.string hugeModel)) = some (.string hugeModel)
    ∧ fixModel Host.ok driver MODEL (some (.string hugeModel))
        ≠ some (.string ("APPLE SSD (".toList ++ hugeModel ++ ")".toList)) := by
  have hfix := fixModel_overflow Host.ok driver MODEL hugeModel hugeModel_not_prefixed
    (by rw [hugeModel_length]; decide)
  refine ⟨Host.ok_noAllocFailure, hugeModel_not_prefixed, hfix, ?_⟩
  rw [hfix]
  intro e
  have e' := congrArg List.length (OSObject.string.inj (Option.some.inj e))
  rw [← format_eq, format_length] at e'
  omega

/-- C3, amended: with no allocation failure, a string that starts with
`APPLE SSD` is returned unchanged; any other string `s` whose rewrite and
terminator fit in a C `int` (`|s| + 13 ≤ INT_MAX`) is replaced by
`"APPLE SSD (" ++ s ++ ")"`; `"ST1000"` becomes `"APPLE SSD (ST1000)"`; and
for every string within that bound the result is a string that starts with
`APPLE SSD`. -/
theorem fixModel_string (h : Host) (target : OSObjectRef) (aKey : OSSymbol) (s : CString)
    (hh : h.NoAllocFailure) :
    (PREFIX <+: s → fixModel h target aKey (some (.string s)) = some (.string s))
    ∧ (¬ PREFIX <+: s → s.length + 13 ≤ 2147483647 →
        fixModel h target aKey (some (.string s))
          = some (.string ("APPLE SSD (".toList ++ s ++ ")".toList)))
    ∧ fixModel h target aKey (some (.string "ST1000".toList))
        = some (.string "APPLE SSD (ST1000)".toList)
    ∧ (s.length + 13 ≤ 2147483647 →
        ∃ r, fixModel h target aKey (some (.string s)) = some (.string r) ∧ PREFIX <+: r) := by
  have hrw : ∀ s' : CString, ¬ PREFIX <+: s' → s'.length + 13 ≤ 2147483647 →
      fixModel h target aKey (some (.string s')) = some (.string (format PREFIX s')) := by
    intro s' hp hlen
    rw [fixModel_rewrite h target aKey s' hp (by omega) hh.IOMalloc, hh.OSString_withCString]
    rfl
  refine ⟨fixModel_prefixed h target aKey s, ?_, ?_, ?_⟩
  · intro hp hlen
    rw [hrw s hp hlen, format_eq]
  · rw [hrw _ (by decide) (by decide)]
    rfl
  · intro hlen
    by_cases hp : PREFIX <+: s
    · exact ⟨s, fixModel_prefixed h target aKey s hp, hp⟩
    · exact ⟨format PREFIX s, hrw s hp hlen, PREFIX_prefix_format s⟩

/-- Witness for C3: `fixModel` on `"WD10"` in the host where nothing
fails. -/
theorem fixModel_string_witness :
    Host.ok.NoAllocFailure
    ∧ fixModel Host.ok driver MODEL (some (.string "WD10".toList))
        = some (.string "APPLE SSD (WD10)".toList) :=
  ⟨Host.ok_noAllocFailure,
    (fixModel_string Host.ok driver MODEL "WD10".toList Host.ok_noAllocFailure).2.1
      (by decide) (by decide)⟩

/-- C4: `fixModel` is idempotent. For every object pointer `v` (a string,
another object or `NULL`), when no allocation fails in the first call, a
second call on the result of the first returns that result unchanged. -/
theorem fixModel_idempotent (h h' : Host) (target target' : OSObjectRef)
    (aKey aKey' : OSSymbol) (v : Option OSObject) (hh : h.NoAllocFailure) :
    fixModel h' target' aKey' (fixModel h target aKey v) = fixModel h target aKey v := by
  by_cases hv : ∃ s, v = some (.string s)
  · obtain ⟨s, rfl⟩ := hv
    by_cases hp : PREFIX <+: s
    · rw [fixModel_prefixed h target aKey s hp, fixModel_prefixed h' target' aKey' s hp]
    · by_cases hlen : s.length + 12 ≤ 2147483647
      · rw [fixModel_rewrite h target aKey s hp hlen hh.IOMalloc, hh.OSString_withCString,
          if_pos rfl]
        exact fixModel_prefixed h' target' aKey' _ (PREFIX_prefix_format s)
      · rw [fixModel_overflow h target aKey s hp (by omega),
          fixModel_overflow h' target' aKey' s hp (by omega)]
  · have hv' : ∀ s, v ≠ some (.string s) := fun s e => hv ⟨s, e⟩
    rw [fixModel_not_string h target aKey v hv', fixModel_not_string h' target' aKey' v hv']

/-- Witness for C4: `"ST1000"`, rewritten once, is left alone by a second
call. -/
theorem fixModel_idempotent_witness :
    Host.ok.NoAllocFailure
    ∧ fixModel Host.ok driver MODEL
        (fixModel Host.ok driver MODEL (some (.string "ST1000".toList)))
        = fixModel Host.ok driver MODEL (some (.string "ST1000".toList)) :=
  ⟨Host.ok_noAllocFailure,
    fixModel_idempotent Host.ok Host.ok driver driver MODEL MODEL _ Host.ok_noAllocFailure⟩

/-! ## `getTargetService` -/

theorem IsChain_unique (r : Registry) :
    ∀ (c₁ c₂ : List Node) (p : Option Node),
      r.IsChain p c₁ → r.IsChain p c₂ → c₁ = c₂
  | [], [], _, _, _ => rfl
  | [], _ :: _, _, h₁, h₂ => by
    simp only [Registry.IsChain] at h₁ h₂
    rw [h₁] at h₂
    exact absurd h₂.1 (by simp)
  | _ :: _, [], _, h₁, h₂ => by
    simp only [Registry.IsChain] at h₁ h₂
    rw [h₂] at h₁
    exact absurd h₁.1 (by simp)
  | a :: as, b :: bs, p, h₁, h₂ => by
    simp only [Registry.IsChain] at h₁ h₂
    have hab : a = b := Option.some.inj (h₁.1.symm.trans h₂.1)
    subst hab
    rw [IsChain_unique r as bs _ h₁.2 h₂.2]

theorem IsChain_tail (r : Registry) (n : Node) :
    ∀ (l₁ l₂ : List Node) (p : Option Node), r.IsChain p (l₁ ++ n :: l₂) →
      r.IsChain (r.getProvider n) l₂
  | [], _, _, h => by
    simp only [List.nil_append, Registry.IsChain] at h
    exact h.2
  | _ :: as, l₂, _, h => by
    simp only [List.cons_append, Registry.IsChain] at h
    exact IsChain_tail r n as l₂ _ h.2

theorem not_mem_own_chain (r : Registry) (me : Node) (c : List Node)
    (hc : r.IsChain (r.getProvider me) c) : me ∉ c := by
  intro hmem
  obtain ⟨l₁, l₂, e⟩ := List.append_of_mem hmem
  have h₂ : r.IsChain (r.getProvider me) l₂ := IsChain_tail r me l₁ l₂ _ (e ▸ hc)
  have e' := congrArg List.length ((IsChain_unique r c l₂ _ hc h₂).symm.trans e).symm
  simp at e'
  omega

theorem getTargetServiceLoop_eq (r : Registry) :
    ∀ (c : List Node) (fuel : Nat) (p : Option Node), r.IsChain p c → c.length < fuel →
      getTargetServiceLoop r r.getServiceRoot fuel p = some (firstTarget r c)
  | [], 0, _, _, hf => absurd hf (by simp)
  | [], _ + 1, p, hc, _ => by
    simp only [Registry.IsChain] at hc
    subst hc
    simp [getTargetServiceLoop, firstTarget]
  | n :: ns, 0, _, _, hf => absurd hf (by simp)
  | n :: ns, fuel + 1, p, hc, hf => by
    simp only [Registry.IsChain] at hc
    obtain ⟨rfl, hc'⟩ := hc
    have ih := getTargetServiceLoop_eq r ns fuel _ hc' (by simpa using hf)
    by_cases hroot : n = r.getServiceRoot
    · simp [getTargetServiceLoop, firstTarget, hroot]
    · by_cases hcast : r.checkMetaCast n = true
      · simp [getTargetServiceLoop, firstTarget, hroot, hcast]
      · simp only [getTargetServiceLoop, hroot, hcast, if_false, ih]
        simp [firstTarget, hroot, hcast]

/-- C5: let `c` be the (finite) provider chain above the driver `me`. With
enough fuel for the walk, `getTargetService` returns: `NULL` when the name
symbol cannot be created or the target class is not found; otherwise the
first node of `c` before the service root whose dynamic type matches,
`NULL` if there is none. In particular it returns `NULL` when the driver's
provider is the root or is `NULL`, and a node it returns lies on the chain,
is of the target class, and is neither the driver nor the root. -/
theorem getTargetService_spec (h : Host) (r : Registry) (me : Node) (c : List Node)
    (fuel : Nat) (hc : r.IsChain (r.getProvider me) c) (hfuel : c.length < fuel) :
    getTargetService h r fuel me
      = some (if h.OSSymbol_withCStringNoCopy TARGET = true
                  ∧ r.getMetaClassWithName TARGET = true
              then firstTarget r c else none)
    ∧ (r.getProvider me = some r.getServiceRoot → getTargetService h r fuel me = some none)
    ∧ (r.getProvider me = none → getTargetService h r fuel me = some none)
    ∧ ∀ t, getTargetService h r fuel me = some (some t) →
        t ∈ c ∧ r.checkMetaCast t = true ∧ t ≠ me ∧ t ≠ r.getServiceRoot := by
  have hloop := getTargetServiceLoop_eq r c fuel _ hc hfuel
  have hmain : getTargetService h r fuel me
      = some (if h.OSSymbol_withCStringNoCopy TARGET = true
                  ∧ r.getMetaClassWithName TARGET = true
              then firstTarget r c else none) := by
    unfold getTargetService OSSymbol.withCStringNoCopy
    by_cases h1 : h.OSSymbol_withCStringNoCopy TARGET = true
    · by_cases h2 : r.getMetaClassWithName TARGET = true
      · simp [h1, h2, hloop]
      · simp [h1, h2]
    · simp [h1]
  have hsub : ∀ t, firstTarget r c = some t →
      t ∈ c ∧ r.checkMetaCast t = true ∧ t ≠ me ∧ t ≠ r.getServiceRoot := by
    intro t ht
    have hin := List.mem_of_find?_eq_some ht
    have hc' : t ∈ c := (List.takeWhile_sublist _).subset hin
    refine ⟨hc', List.find?_some ht, ?_, ?_⟩
    · rintro rfl
      exact not_mem_own_chain r t c hc hc'
    · simpa using List.mem_takeWhile_imp hin
  refine ⟨hmain, ?_, ?_, ?_⟩
  · intro hp
    rw [hmain]
    cases c with
    | nil => simp [firstTarget]
    | cons n ns =>
      have hn : n = r.getServiceRoot := by
        have := hc.1
        rw [hp] at this
        exact (Option.some.inj this).symm
      simp [firstTarget, hn]
  · intro hp
    rw [hmain]
    cases c with
    | nil => simp [firstTarget]
    | cons n ns =>
      have := hc.1
      rw [hp] at this
      exact absurd this (by simp)
  · intro t ht
    rw [hmain] at ht
    split_ifs at ht with hres
    · exact hsub t (Option.some.inj ht)
    · exact absurd (Option.some.inj ht) (by simp)

/-- Witness for C5: on the chain `driver → 2 → 3 (target class) → root` the
node `3` is returned. -/
theorem getTargetService_spec_witness :
    (sampleRegistry plainTarget).IsChain ((sampleRegistry plainTarget).getProvider 1) [2, 3, 4]
    ∧ getTargetService Host.ok (sampleRegistry plainTarget) 4 1 = some (some 3) :=
  have hc : (sampleRegistry plainTarget).IsChain
      ((sampleRegistry plainTarget).getProvider 1) [2, 3, 4] := ⟨rfl, rfl, rfl, rfl⟩
  ⟨hc, (getTargetService_spec Host.ok (sampleRegistry plainTarget) 1 [2, 3, 4] 4 hc
      (by decide)).1.trans (by decide)⟩

/-! ## `hookProperties` and `unhookProperties` -/

theorem hookProperties_plain_success (h : Host) (target : OSObjectRef)
    (E : OSDictionary OSObject)
    (hsucc : (hookProperties h (some target) (some ⟨some (.plain E)⟩)).1 = .kIOReturnSuccess)
    (halloc : h.OSTypeAlloc_Callback = true) (hinit : h.Callback_init = true) :
    (hookProperties h (some target) (some ⟨some (.plain E)⟩)).2
      = some ⟨some (.hooked
          { entries := E, hooks := ⟨[(MODEL, { f := fixModel, target := target })]⟩ })⟩ := by
  cases hd : target.isNewIOBlockStorageDriver <;> cases ha : h.OSTypeAlloc_Dictionary <;>
    cases hw : h.OSDictionary_withCapacity <;> cases hi : h.initWithDictionary <;>
    cases hs : h.OSSymbol_withCStringNoCopy MODEL <;>
    simp [hookProperties, asDriver, IOService.getPropertyTable, IOService.setPropertyTable,
      PropertyTable.asDictionary, Dictionary.withDictionary, OSSymbol.withCStringNoCopy,
      Dictionary.addHook, Callback.withFunc, OSDictionary.setObject, OSDictionary.insert,
      OSDictionary.empty, PropertyTable.entries, hd, ha, hw, hi, hs, halloc, hinit] at hsucc ⊢

theorem stored_model_prefixed (h : Host) (d : Dictionary) (target : OSObjectRef) (s : CString)
    (hd : d.hooks.entries = [(MODEL, { f := fixModel, target := target })])
    (hp : PREFIX <+: s) :
    (d.setObject h (some MODEL) (some (.string s))).dict.entries.getObject (some MODEL)
      = some (.string s) := by
  have hk : d.hooks.getObject (some MODEL) = some { f := fixModel, target := target } := by
    simp [OSDictionary.getObject, hd, OSDictionary.lookup]
  rw [setObject_of_hook h d MODEL _ _ hk]
  simp only [fixModel_prefixed h target MODEL s hp]
  exact (getObject_setObject_self d.entries MODEL _).2

theorem stored_model_rewritten (h : Host) (d : Dictionary) (target : OSObjectRef) (s : CString)
    (hd : d.hooks.entries = [(MODEL, { f := fixModel, target := target })])
    (hp : ¬ PREFIX <+: s) (hlen : s.length + 13 ≤ 2147483647) (hh : h.NoAllocFailure) :
    (d.setObject h (some MODEL) (some (.string s))).dict.entries.getObject (some MODEL)
      = some (.string ("APPLE SSD (".toList ++ s ++ ")".toList)) := by
  have hk : d.hooks.getObject (some MODEL) = some { f := fixModel, target := target } := by
    simp [OSDictionary.getObject, hd, OSDictionary.lookup]
  rw [setObject_of_hook h d MODEL _ _ hk]
  simp only [fixModel_rewrite h target MODEL s hp (by omega) hh.IOMalloc,
    hh.OSString_withCString, if_true, format_eq]
  exact (getObject_setObject_self d.entries MODEL _).2

theorem stored_model_unchanged (h : Host) (d : Dictionary) (target : OSObjectRef) (s : CString)
    (hd : d.hooks.entries = [(MODEL, { f := fixModel, target := target })])
    (hfix : fixModel h target MODEL (some (.string s)) = some (.string s)) :
    (d.setObject h (some MODEL) (some (.string s))).dict.entries.getObject (some MODEL)
      = some (.string s) := by
  have hk : d.hooks.getObject (some MODEL) = some { f := fixModel, target := target } := by
    simp [OSDictionary.getObject, hd, OSDictionary.lookup]
  rw [setObject_of_hook h d MODEL _ _ hk]
  simp only [hfix]
  exact (getObject_setObject_self d.entries MODEL _).2

/-- Counterexample to C6 as stated: `hookProperties` succeeds on the plain
table `Model = "ST1000"` and installs the hook, yet a later set of `Model`
to `"WD10"` during which `IOMalloc` fails stores `"WD10"` itself, and a later
set to a string of 2147483636 characters stores that string itself; neither
string starts with `APPLE SSD`. -/
theorem hookProperties_then_set_counterexample :
    hookProperties Host.ok (some driver) (some plainTarget)
      = (.kIOReturnSuccess, some hookedTarget)
    ∧ ¬ PREFIX <+: "WD10".toList
    ∧ (hookedModel.setObject { Host.ok with IOMalloc := fun _ => false } (some MODEL)
        (some (.string "WD10".toList))).dict.entries.getObject (some MODEL)
        = some (.string "WD10".toList)
    ∧ ¬ PREFIX <+: hugeModel
    ∧ (hookedModel.setObject Host.ok (some MODEL)
        (some (.string hugeModel))).dict.entries.getObject (some MODEL)
        = some (.string hugeModel) :=
  ⟨rfl, by decide,
    stored_model_unchanged _ hookedModel driver _ rfl
      (fixModel_malloc_fail _ driver MODEL _ (fun _ => rfl)),
    hugeModel_not_prefixed,
    stored_model_unchanged _ hookedModel driver _ rfl
      (fixModel_overflow _ driver MODEL _ hugeModel_not_prefixed
        (by rw [hugeModel_length]; decide))⟩

/-- C6, amended: when `hookProperties` reports success on a target whose
property table is a plain map with entries `E`, and the `Callback` of the
hook was created, the target's table afterwards is a `Dictionary` with
entries `E` whose side-table holds exactly `Model ↦ fixModel` (context: the
driver). A later set of `Model` to a string `s` on it stores `s` when `s`
starts with `APPLE SSD`, and stores `"APPLE SSD (" ++ s ++ ")"` when it does
not, provided no allocation fails in that set and `|s| + 13 ≤ INT_MAX`. -/
theorem hookProperties_then_set (h h' : Host) (target : OSObjectRef)
    (E : OSDictionary OSObject) (s : CString)
    (hsucc : (hookProperties h (some target) (some ⟨some (.plain E)⟩)).1 = .kIOReturnSuccess)
    (halloc : h.OSTypeAlloc_Callback = true) (hinit : h.Callback_init = true) :
    ∃ d : Dictionary,
      (hookProperties h (some target) (some ⟨some (.plain E)⟩)).2 = some ⟨some (.hooked d)⟩
      ∧ d.entries = E
      ∧ d.hooks.entries = [(MODEL, { f := fixModel, target := target })]
      ∧ (PREFIX <+: s →
          (d.setObject h' (some MODEL) (some (.string s))).dict.entries.getObject (some MODEL)
            = some (.string s))
      ∧ (¬ PREFIX <+: s → s.length + 13 ≤ 2147483647 → h'.NoAllocFailure →
          (d.setObject h' (some MODEL) (some (.string s))).dict.entries.getObject (some MODEL)
            = some (.string ("APPLE SSD (".toList ++ s ++ ")".toList))) :=
  ⟨{ entries := E, hooks := ⟨[(MODEL, { f := fixModel, target := target })]⟩ },
    hookProperties_plain_success h target E hsucc halloc hinit, rfl, rfl,
    stored_model_prefixed h' _ target s rfl,
    stored_model_rewritten h' _ target s rfl⟩

/-- Witness for C6: the plain table `Model = "ST1000"`, hooked in the host
where nothing fails. -/
theorem hookProperties_then_set_witness :
    (hookProperties Host.ok (some driver) (some plainTarget)).1 = .kIOReturnSuccess
    ∧ ∃ d : Dictionary,
      (hookProperties Host.ok (some driver) (some plainTarget)).2 = some ⟨some (.hooked d)⟩
      ∧ d.entries = ⟨[("Model", .string "ST1000".toList)]⟩
      ∧ d.hooks.entries = [(MODEL, { f := fixModel, target := driver })]
      ∧ (PREFIX <+: "WD10".toList →
          (d.setObject Host.ok (some MODEL)
            (some (.string "WD10".toList))).dict.entries.getObject (some MODEL)
            = some (.string "WD10".toList))
      ∧ (¬ PREFIX <+: "WD10".toList → "WD10".toList.length + 13 ≤ 2147483647 →
          Host.ok.NoAllocFailure →
          (d.setObject Host.ok (some MODEL)
            (some (.string "WD10".toList))).dict.entries.getObject (some MODEL)
            = some (.string ("APPLE SSD (".toList ++ "WD10".toList ++ ")".toList))) :=
  ⟨rfl, hookProperties_then_set Host.ok Host.ok driver
    ⟨[("Model", .string "ST1000".toList)]⟩ "WD10".toList rfl rfl rfl⟩

/-- C9, the failing input evaluated: when `OSTypeAlloc(Callback)` fails inside
`addHook`, `hookProperties` on the plain table `Model = "ST1000"` reports
success and swaps in a `Dictionary` with an empty side-table, on which a
later set of `Model` to `"WD10"` invokes no callback and stores `"WD10"`. -/
theorem hookProperties_callback_alloc_failure :
    hookProperties { Host.ok with OSTypeAlloc_Callback := false } (some driver) (some plainTarget)
      = (.kIOReturnSuccess,
          some ⟨some (.hooked { entries := ⟨[("Model", .string "ST1000".toList)]⟩
                                hooks := ⟨[]⟩ })⟩)
    ∧ ((Dictionary.setObject Host.ok
          { entries := ⟨[("Model", .string "ST1000".toList)]⟩, hooks := ⟨[]⟩ }
          (some MODEL) (some (.string "WD10".toList))).invoked.length = 0)
    ∧ (Dictionary.setObject Host.ok
          { entries := ⟨[("Model", .string "ST1000".toList)]⟩, hooks := ⟨[]⟩ }
          (some MODEL) (some (.string "WD10".toList))).dict.entries.getObject (some MODEL)
        = some (.string "WD10".toList) :=
  ⟨rfl, rfl, by decide⟩

/-- The allocation failures `hookProperties` does handle: when the new
`Dictionary`, its side-table or its entry copy cannot be created, or the
`Model` symbol cannot be created, the status is `kIOReturnNoMemory` and the
target is left as it was. -/
theorem hookProperties_noMemory (h : Host) (target : OSObjectRef) (tgt : IOService)
    (cur : PropertyTable) (hd : target.isNewIOBlockStorageDriver = true)
    (hcur : tgt.propertyTable = some cur)
    (hfail : (PropertyTable.asDictionary (some cur) = none
                ∧ (h.OSTypeAlloc_Dictionary = false ∨ h.OSDictionary_withCapacity = false
                    ∨ h.initWithDictionary = false))
              ∨ h.OSSymbol_withCStringNoCopy MODEL = false) :
    hookProperties h (some target) (some tgt) = (.kIOReturnNoMemory, some tgt) := by
  cases cur with
  | plain E =>
    cases ha : h.OSTypeAlloc_Dictionary <;> cases hw : h.OSDictionary_withCapacity <;>
      cases hi : h.initWithDictionary <;> cases hs : h.OSSymbol_withCStringNoCopy MODEL <;>
      simp [hookProperties, asDriver, IOService.getPropertyTable, PropertyTable.asDictionary,
        Dictionary.withDictionary, OSSymbol.withCStringNoCopy, hd, hcur, ha, hw, hi,
        hs] at hfail ⊢
  | hooked d =>
    have hs : h.OSSymbol_withCStringNoCopy MODEL = false := by
      simpa [PropertyTable.asDictionary] using hfail
    simp [hookProperties, asDriver, IOService.getPropertyTable, PropertyTable.asDictionary,
      OSSymbol.withCStringNoCopy, hd, hcur, hs]

/-- The same defect for every plain table: whenever the `Callback` cannot be
created and the other allocations succeed, `hookProperties` reports success
and installs a `Dictionary` with the entries `E` and no hook. -/
theorem hookProperties_without_callback (h : Host) (target : OSObjectRef)
    (E : OSDictionary OSObject) (hd : target.isNewIOBlockStorageDriver = true)
    (ha : h.OSTypeAlloc_Dictionary = true) (hw : h.OSDictionary_withCapacity = true)
    (hi : h.initWithDictionary = true) (hs : h.OSSymbol_withCStringNoCopy MODEL = true)
    (hcb : h.OSTypeAlloc_Callback = false ∨ h.Callback_init = false) :
    hookProperties h (some target) (some ⟨some (.plain E)⟩)
      = (.kIOReturnSuccess, some ⟨some (.hooked { entries := E, hooks := ⟨[]⟩ })⟩) := by
  rcases hcb with hcb | hcb <;> cases hc : h.OSTypeAlloc_Callback <;>
    simp [hookProperties, asDriver, IOService.getPropertyTable, IOService.setPropertyTable,
      PropertyTable.asDictionary, Dictionary.withDictionary, OSSymbol.withCStringNoCopy,
      Dictionary.addHook, Callback.withFunc, OSDictionary.empty, PropertyTable.entries,
      hd, ha, hw, hi, hs, hcb, hc] at hcb ⊢

/-- C10, the failing input evaluated: when `OSDictionary::withDictionary`
fails, `unhookProperties` on a target holding the hookable dictionary leaves
that dictionary in place and reports `kIOReturnSuccess`. -/
theorem unhookProperties_alloc_failure :
    unhookProperties { Host.ok with OSDictionary_withDictionary := false } (some driver)
        (some hookedTarget)
      = (.kIOReturnSuccess, some hookedTarget) :=
  rfl

/-- The same defect for every hookable dictionary `d`: when the plain copy
cannot be allocated, the target keeps `d` and the status is
`kIOReturnSuccess`. -/
theorem unhookProperties_without_copy (h : Host) (target : OSObjectRef) (d : Dictionary)
    (hd : target.isNewIOBlockStorageDriver = true)
    (hfail : h.OSDictionary_withDictionary = false) :
    unhookProperties h (some target) (some ⟨some (.hooked d)⟩)
      = (.kIOReturnSuccess, some ⟨some (.hooked d)⟩) := by
  simp [unhookProperties, asDriver, IOService.getPropertyTable, PropertyTable.asDictionary,
    OSDictionary.withDictionary, hd, hfail]

/-! ## `NewIOBlockStorageDriver::start` -/

theorem terminateLoop_of_found (o : Outcomes) (r : Registry) (tgt : Node) :
    ∀ (fuel : Nat) (p : Option Node),
      getTargetServiceLoop r r.getServiceRoot fuel p = some (some tgt) →
      ∃ cs, terminateLoop o r tgt fuel p = some cs
        ∧ ∀ c ∈ cs, ∃ n b, c = HostCall.terminate n b
  | 0, _, hfound => by simp [getTargetServiceLoop] at hfound
  | fuel + 1, none, hfound => by simp [getTargetServiceLoop] at hfound
  | fuel + 1, some n, hfound => by
    by_cases hn : n = tgt
    · exact ⟨[], by simp [terminateLoop, hn], by simp⟩
    · have hfound' : getTargetServiceLoop r r.getServiceRoot fuel (r.getProvider n)
          = some (some tgt) := by
        simp only [getTargetServiceLoop] at hfound
        split_ifs at hfound with h1 h2
        · exact absurd hfound (by simp)
        · exact absurd (Option.some.inj (Option.some.inj hfound)) hn
        · exact hfound
      obtain ⟨cs, hcs, hall⟩ := terminateLoop_of_found o r tgt fuel _ hfound'
      refine ⟨HostCall.terminate n (o.terminate n) :: cs, by simp [terminateLoop, hn, hcs], ?_⟩
      intro c hc
      rcases List.mem_cons.1 hc with rfl | hc
      · exact ⟨n, _, rfl⟩
      · exact hall c hc

theorem getTargetService_found_loop (h : Host) (r : Registry) (fuel : Nat) (me tgt : Node)
    (ht : getTargetService h r fuel me = some (some tgt)) :
    getTargetServiceLoop r r.getServiceRoot fuel (r.getProvider me) = some (some tgt) := by
  unfold getTargetService at ht
  split at ht
  · split_ifs at ht
    · exact ht
    · exact absurd ht (by simp)
  · exact absurd ht (by simp)

/-- Counterexample to C7 as stated: the target `3` is found and already holds
the hookable dictionary, the superclass `start` returns `true`, and so does
`NewIOBlockStorageDriver::start`. -/
theorem start_already_hooked_counterexample :
    getTargetService Host.ok (sampleRegistry hookedTarget) 4 1 = some (some 3)
    ∧ (PropertyTable.asDictionary
        ((sampleRegistry hookedTarget).service 3).getPropertyTable).isSome = true
    ∧ Outcomes.allTrue.superStart = true
    ∧ (NewIOBlockStorageDriver.start Host.ok Outcomes.allTrue (sampleRegistry hookedTarget)
        4 1 (some 2)).map (fun run => run.result) = some true :=
  ⟨by decide, rfl, rfl, rfl⟩

/-- C7, amended: when the target is found and its property table is already
a hookable `Dictionary`, `start` makes one host call, the superclass `start`
with the same provider, and returns its result; no property action runs, so
the registry, and with it the target's table and its hooks, is left exactly
as it was. -/
theorem start_already_hooked (h : Host) (o : Outcomes) (r : Registry) (fuel : Nat)
    (me tgt : Node) (provider : Option Node)
    (ht : getTargetService h r fuel me = some (some tgt))
    (hhooked : (PropertyTable.asDictionary (r.service tgt).getPropertyTable).isSome = true) :
    ∃ run, NewIOBlockStorageDriver.start h o r fuel me provider = some run
      ∧ run.result = o.superStart
      ∧ run.calls = [.superStart provider o.superStart]
      ∧ run.registry = r :=
  ⟨{ result := o.superStart, registry := r, calls := [.superStart provider o.superStart] },
    by simp [NewIOBlockStorageDriver.start, ht, hhooked], rfl, rfl, rfl⟩

/-- Witness for C7: the sample tree whose target already holds the hookable
dictionary, with a superclass `start` that succeeds. -/
theorem start_already_hooked_witness :
    getTargetService Host.ok (sampleRegistry hookedTarget) 4 1 = some (some 3)
    ∧ ∃ run,
      NewIOBlockStorageDriver.start Host.ok Outcomes.allTrue (sampleRegistry hookedTarget)
        4 1 (some 2) = some run
      ∧ run.result = Outcomes.allTrue.superStart
      ∧ run.calls = [.superStart (some 2) Outcomes.allTrue.superStart]
      ∧ run.registry = sampleRegistry hookedTarget :=
  ⟨by decide, start_already_hooked Host.ok Outcomes.allTrue (sampleRegistry hookedTarget) 4 1 3
    (some 2) (by decide) rfl⟩

/-- C8: when the target is found, its property table is not a hookable
`Dictionary`, it has a provider, and `start` is called with the driver's own
provider, `start` returns `false` and never calls the superclass `start`,
whatever the allocations (hence the status of `hookProperties`), the
target's restart and the `terminate` calls yield. -/
theorem start_install_returns_false (h : Host) (o : Outcomes) (r : Registry) (fuel : Nat)
    (me tgt tgtParent : Node) (provider : Option Node)
    (ht : getTargetService h r fuel me = some (some tgt))
    (hplain : PropertyTable.asDictionary (r.service tgt).getPropertyTable = none)
    (hparent : r.getProvider tgt = some tgtParent)
    (hprovider : provider = r.getProvider me) :
    ∃ run, NewIOBlockStorageDriver.start h o r fuel me provider = some run
      ∧ run.result = false
      ∧ ∀ p b, HostCall.superStart p b ∉ run.calls := by
  subst hprovider
  obtain ⟨cs, hcs, hall⟩ :=
    terminateLoop_of_found o r tgt fuel _ (getTargetService_found_loop h r fuel me tgt ht)
  refine ⟨_,
    by simp only [NewIOBlockStorageDriver.start, ht, hplain, hparent, hcs,
        Option.isSome_none]; rfl,
    rfl, ?_⟩
  intro p b hmem
  simp only [List.mem_append, List.mem_cons, List.mem_singleton, List.not_mem_nil,
    or_false] at hmem
  rcases hmem with (hmem | hmem | hmem | hmem) | hmem
  · split_ifs at hmem
    · simp at hmem
    · simp at hmem
  · cases hmem
  · cases hmem
  · cases hmem
  · obtain ⟨n, b', e⟩ := hall _ hmem
    cases e

/-- Witness for C8: the sample tree with a plain target table; the driver is
started with its provider `2`. -/
theorem start_install_returns_false_witness :
    getTargetService Host.ok (sampleRegistry plainTarget) 4 1 = some (some 3)
    ∧ ∃ run,
      NewIOBlockStorageDriver.start Host.ok Outcomes.allTrue (sampleRegistry plainTarget)
        4 1 (some 2) = some run
      ∧ run.result = false
      ∧ ∀ p b, HostCall.superStart p b ∉ run.calls :=
  ⟨by decide, start_install_returns_false Host.ok Outcomes.allTrue (sampleRegistry plainTarget)
    4 1 3 4 (some 2) (by decide) rfl rfl rfl⟩

/-! ## `unhookProperties` and `NewIOBlockStorageDriver::stop` -/

theorem setService_same (r : Registry) (tgt : Node) :
    (r.setService tgt (some (r.service tgt))).service = r.service := by
  funext n
  by_cases hn : n = tgt
  · simp [Registry.setService, hn]
  · simp [Registry.setService, hn]

theorem unhookProperties_not_hooked (h : Host) (target : Option OSObjectRef) (tgt : IOService)
    (hplain : PropertyTable.asDictionary tgt.getPropertyTable = none) :
    unhookProperties h target (some tgt) = (.kIOReturnInternalError, some tgt) := by
  unfold unhookProperties
  cases hd : asDriver target with
  | none => rfl
  | some t => simp only [hplain]

/-- C11: `unhookProperties` on a service whose property table is a plain map
returns `kIOReturnInternalError` and hands the service back with that same
table, whatever object is passed as `target`; and when
`NewIOBlockStorageDriver::stop` finds such a target, the registry keeps every
property table and the calls made are the property action, with that status,
followed by the superclass `stop` with the same provider. -/
theorem unhookProperties_plain (h : Host) (target : Option OSObjectRef)
    (E : OSDictionary OSObject) (r : Registry) (fuel : Nat) (me tgt : Node)
    (provider : Option Node)
    (ht : getTargetService h r fuel me = some (some tgt))
    (hE : (r.service tgt).propertyTable = some (.plain E)) :
    unhookProperties h target (some ⟨some (.plain E)⟩)
      = (.kIOReturnInternalError, some ⟨some (.plain E)⟩)
    ∧ ∃ run, NewIOBlockStorageDriver.stop h r fuel me provider = some run
        ∧ run.calls = [.runPropertyAction tgt .kIOReturnInternalError, .superStop provider]
        ∧ run.registry.service = r.service := by
  have hplain : PropertyTable.asDictionary (r.service tgt).getPropertyTable = none := by
    simp [IOService.getPropertyTable, hE, PropertyTable.asDictionary]
  have hact := unhookProperties_not_hooked h (some ⟨me, true⟩) (r.service tgt) hplain
  refine ⟨unhookProperties_not_hooked h target _ rfl, ?_⟩
  refine ⟨{ result := (), registry := r.setService tgt (some (r.service tgt)),
            calls := [.runPropertyAction tgt .kIOReturnInternalError, .superStop provider] },
    ?_, rfl, setService_same r tgt⟩
  simp only [NewIOBlockStorageDriver.stop, ht, hact]

/-- Witness for C11: the sample tree whose target holds the plain table
`Model = "ST1000"`; the driver `1` is stopped. -/
theorem unhookProperties_plain_witness :
    getTargetService Host.ok (sampleRegistry plainTarget) 4 1 = some (some 3)
    ∧ unhookProperties Host.ok (some driver) (some plainTarget)
        = (.kIOReturnInternalError, some plainTarget)
    ∧ ∃ run, NewIOBlockStorageDriver.stop Host.ok (sampleRegistry plainTarget) 4 1 (some 2)
          = some run
        ∧ run.calls = [.runPropertyAction 3 .kIOReturnInternalError, .superStop (some 2)]
        ∧ run.registry.service = (sampleRegistry plainTarget).service :=
  ⟨by decide,
    unhookProperties_plain Host.ok (some driver) ⟨[("Model", .string "ST1000".toList)]⟩
      (sampleRegistry plainTarget) 4 1 3 (some 2) (by decide) rfl⟩

/-- C12: when the driver runs `unhookProperties` on a service whose property
table is a hookable `Dictionary` `d` and no allocation fails, the status is
`kIOReturnSuccess` and the service is left with a plain map holding the
entries of `d`; a later `setObject` of `Model` to a string `s` through that
table invokes no callback and a lookup of `Model` then gives `s` itself. -/
theorem unhookProperties_hooked (h h' : Host) (target : OSObjectRef) (d : Dictionary)
    (s : CString) (hd : target.isNewIOBlockStorageDriver = true) (hh : h.NoAllocFailure) :
    unhookProperties h (some target) (some ⟨some (.hooked d)⟩)
      = (.kIOReturnSuccess, some ⟨some (.plain d.entries)⟩)
    ∧ ((PropertyTable.plain d.entries).setObject h' (some MODEL)
        (some (.string s))).invoked = []
    ∧ ((PropertyTable.plain d.entries).setObject h' (some MODEL)
        (some (.string s))).table.entries.getObject (some MODEL) = some (.string s) := by
  refine ⟨?_, rfl, ?_⟩
  · simp [unhookProperties, asDriver, IOService.getPropertyTable, IOService.setPropertyTable,
      PropertyTable.asDictionary, OSDictionary.withDictionary, PropertyTable.entries, hd,
      hh.OSDictionary_withDictionary]
  · simp only [PropertyTable.setObject, PropertyTable.entries]
    exact (getObject_setObject_self d.entries MODEL _).2

/-- Witness for C12: the hooked table `Model = "ST1000"` is unhooked, then
`Model` is set to `"WD10"`. -/
theorem unhookProperties_hooked_witness :
    driver.isNewIOBlockStorageDriver = true ∧ Host.ok.NoAllocFailure
    ∧ unhookProperties Host.ok (some driver) (some hookedTarget)
        = (.kIOReturnSuccess, some plainTarget)
    ∧ ((PropertyTable.plain hookedModel.entries).setObject Host.ok (some MODEL)
        (some (.string "WD10".toList))).table.entries.getObject (some MODEL)
        = some (.string "WD10".toList) :=
  have hC := unhookProperties_hooked Host.ok Host.ok driver hookedModel "WD10".toList rfl
    Host.ok_noAllocFailure
  ⟨rfl, Host.ok_noAllocFailure, hC.1, hC.2.2⟩

/-! ## Hooks and entries of the `Dictionary` -/

theorem insert_insert {α : Type} (k : OSSymbol) (v₁ v₂ : α) (es : List (OSSymbol × α)) :
    OSDictionary.insert k v₂ (OSDictionary.insert k v₁ es) = OSDictionary.insert k v₂ es := by
  induction es with
  | nil => simp [OSDictionary.insert]
  | cons e es ih =>
    obtain ⟨k', v'⟩ := e
    by_cases hk : k' = k
    · simp [OSDictionary.insert, hk]
    · simp [OSDictionary.insert, hk, ih]

theorem erase_insert {α : Type} (k : OSSymbol) (v : α) (es : List (OSSymbol × α))
    (hk : OSDictionary.lookup k es = none) :
    OSDictionary.erase k (OSDictionary.insert k v es) = es := by
  induction es with
  | nil => simp [OSDictionary.insert, OSDictionary.erase]
  | cons e es ih =>
    obtain ⟨k', v'⟩ := e
    by_cases hk' : k' = k
    · simp [OSDictionary.lookup, hk'] at hk
    · simp only [OSDictionary.lookup, hk', if_false] at hk
      simp [OSDictionary.insert, OSDictionary.erase, hk', ih hk]

theorem erase_of_lookup_none {α : Type} (k : OSSymbol) (es : List (OSSymbol × α))
    (hk : OSDictionary.lookup k es = none) : OSDictionary.erase k es = es := by
  induction es with
  | nil => rfl
  | cons e es ih =>
    obtain ⟨k₀, v₀⟩ := e
    by_cases h₀ : k₀ = k
    · simp [OSDictionary.lookup, h₀] at hk
    · simp only [OSDictionary.lookup, h₀, if_false] at hk
      simp only [OSDictionary.erase, h₀, if_false, ih hk]

theorem lookup_erase_ne {α : Type} (k k' : OSSymbol) (es : List (OSSymbol × α))
    (hne : k' ≠ k) :
    OSDictionary.lookup k' (OSDictionary.erase k es) = OSDictionary.lookup k' es := by
  induction es with
  | nil => rfl
  | cons e es ih =>
    obtain ⟨k₀, v₀⟩ := e
    by_cases h₀ : k₀ = k
    · subst h₀
      have h₁ : ¬ k₀ = k' := fun e => hne e.symm
      simp only [OSDictionary.erase, OSDictionary.lookup, if_true, h₁, if_false]
    · by_cases h₁ : k₀ = k'
      · subst h₁
        simp only [OSDictionary.erase, OSDictionary.lookup, h₀, if_true, if_false]
      · simp only [OSDictionary.erase, OSDictionary.lookup, h₀, h₁, if_false, ih]

theorem lookup_insert_ne {α : Type} (k k' : OSSymbol) (v : α) (es : List (OSSymbol × α))
    (hne : k' ≠ k) :
    OSDictionary.lookup k' (OSDictionary.insert k v es) = OSDictionary.lookup k' es := by
  induction es with
  | nil =>
    have h₁ : ¬ k = k' := fun e => hne e.symm
    simp only [OSDictionary.insert, OSDictionary.lookup, h₁, if_false]
  | cons e es ih =>
    obtain ⟨k₀, v₀⟩ := e
    by_cases h₀ : k₀ = k
    · subst h₀
      have h₁ : ¬ k₀ = k' := fun e => hne e.symm
      simp only [OSDictionary.insert, OSDictionary.lookup, if_true, h₁, if_false]
    · by_cases h₁ : k₀ = k'
      · subst h₁
        simp only [OSDictionary.insert, OSDictionary.lookup, h₀, if_true, if_false]
      · simp only [OSDictionary.insert, OSDictionary.lookup, h₀, h₁, if_false, ih]

theorem lookup_of_not_key {α : Type} (k : OSSymbol) (es : List (OSSymbol × α))
    (hk : k ∉ es.map Prod.fst) : OSDictionary.lookup k es = none := by
  induction es with
  | nil => rfl
  | cons e es ih =>
    obtain ⟨k₀, v₀⟩ := e
    simp only [List.map_cons, List.mem_cons, not_or] at hk
    have h₀ : ¬ k₀ = k := fun e => hk.1 e.symm
    simp [OSDictionary.lookup, h₀, ih hk.2]

theorem lookup_erase_self {α : Type} (k : OSSymbol) (es : List (OSSymbol × α))
    (hwf : (es.map Prod.fst).Nodup) :
    OSDictionary.lookup k (OSDictionary.erase k es) = none := by
  induction es with
  | nil => rfl
  | cons e es ih =>
    obtain ⟨k₀, v₀⟩ := e
    simp only [List.map_cons, List.nodup_cons] at hwf
    by_cases h₀ : k₀ = k
    · subst h₀
      simp [OSDictionary.erase, lookup_of_not_key _ es hwf.1]
    · simp [OSDictionary.erase, OSDictionary.lookup, h₀, ih hwf.2]

theorem filter_key_of_not_key {α : Type} (k : OSSymbol) (es : List (OSSymbol × α))
    (hk : k ∉ es.map Prod.fst) : es.filter (fun e => e.1 == k) = [] := by
  induction es with
  | nil => rfl
  | cons e es ih =>
    obtain ⟨k₀, v₀⟩ := e
    simp only [List.map_cons, List.mem_cons, not_or] at hk
    have h₀ : ¬ k₀ = k := fun e => hk.1 e.symm
    simp [List.filter_cons, h₀, ih hk.2]

theorem filter_key_insert {α : Type} (k : OSSymbol) (v : α) (es : List (OSSymbol × α))
    (hwf : (es.map Prod.fst).Nodup) :
    (OSDictionary.insert k v es).filter (fun e => e.1 == k) = [(k, v)] := by
  induction es with
  | nil => simp [OSDictionary.insert]
  | cons e es ih =>
    obtain ⟨k₀, v₀⟩ := e
    simp only [List.map_cons, List.nodup_cons] at hwf
    by_cases h₀ : k₀ = k
    · subst h₀
      simp [OSDictionary.insert, List.filter_cons, filter_key_of_not_key _ es hwf.1]
    · simp [OSDictionary.insert, List.filter_cons, h₀, ih hwf.2]

theorem setObject_of_no_hook (h : Host) (d : Dictionary) (k : OSSymbol)
    (v : Option OSObject) (hk : d.hooks.getObject (some k) = none) :
    d.setObject h (some k) v
      = { result := (d.entries.setObject (some k) v).1
          dict := { d with entries := (d.entries.setObject (some k) v).2 }
          invoked := [] } := by
  simp only [Dictionary.setObject, hk]

theorem addHook_success (h : Host) (d d' : Dictionary) (k : OSSymbol) (c : OSObjectRef)
    (f : SetCallback) (hadd : d.addHook h (some k) (some c) (some f) = (true, d')) :
    d' = { d with
            hooks := ⟨OSDictionary.insert k { f := f, target := c } d.hooks.entries⟩ } := by
  cases ha : h.OSTypeAlloc_Callback <;> cases hi : h.Callback_init <;>
    simp [Dictionary.addHook, Callback.withFunc, OSDictionary.setObject, ha, hi] at hadd
  exact hadd.symm

/-- C13: when `addHook(k, c₁, f₁)` and then `addHook(k, c₂, f₂)` both return
`true`, the entries are untouched and the side-table is the one a single
registration of `(f₂, c₂)` would have produced: a lookup of `k` gives
`(f₂, c₂)` and, the keys being distinct as libkern keeps them, `k` has
exactly that one registration. On every later state with that side-table,
`setObject(k, v)` makes exactly one invocation, of `f₂` with `c₂`, and hands
its result to the underlying map; `f₁` is not invoked. -/
theorem addHook_replaces (h₁ h₂ h' : Host) (d d₁ d₂ : Dictionary) (k : OSSymbol)
    (c₁ c₂ : OSObjectRef) (f₁ f₂ : SetCallback)
    (hadd₁ : d.addHook h₁ (some k) (some c₁) (some f₁) = (true, d₁))
    (hadd₂ : d₁.addHook h₂ (some k) (some c₂) (some f₂) = (true, d₂)) :
    d₂.entries = d.entries
    ∧ d₂.hooks = (d.hooks.setObject (some k) (some { f := f₂, target := c₂ })).2
    ∧ d₂.hooks.getObject (some k) = some { f := f₂, target := c₂ }
    ∧ (d.hooks.WF → registrations k d₂.hooks = [(k, { f := f₂, target := c₂ })])
    ∧ ∀ (d' : Dictionary) (v : Option OSObject), d'.hooks = d₂.hooks →
        (d'.setObject h' (some k) v).invoked
          = [{ cb := { f := f₂, target := c₂ }, aKey := k, aValue := v }]
        ∧ (d'.setObject h' (some k) v).dict.entries
          = (d'.entries.setObject (some k) (f₂ h' c₂ k v)).2 := by
  have e₁ := addHook_success h₁ d d₁ k c₁ f₁ hadd₁
  have e₂ := addHook_success h₂ d₁ d₂ k c₂ f₂ hadd₂
  subst e₁
  subst e₂
  have hlook : OSDictionary.getObject
      (⟨OSDictionary.insert k { f := f₂, target := c₂ }
        (OSDictionary.insert k { f := f₁, target := c₁ } d.hooks.entries)⟩ :
          OSDictionary Callback) (some k) = some { f := f₂, target := c₂ } :=
    lookup_insert_self k _ _
  refine ⟨rfl, ?_, hlook, ?_, ?_⟩
  · simp only [OSDictionary.setObject, insert_insert]
  · intro hwf
    simp only [registrations, insert_insert]
    exact filter_key_insert k _ _ hwf
  · intro d' v hd'
    have hk : d'.hooks.getObject (some k) = some { f := f₂, target := c₂ } := by
      rw [hd']
      exact hlook
    rw [setObject_of_hook h' d' k _ v hk]
    exact ⟨rfl, rfl⟩

/-- Witness for C13: `keepValue` and then `fixModel` are registered on
`Model`; a set of `Model` to `"WD10"` then stores the rewrite of
`fixModel`. -/
theorem addHook_replaces_witness :
    unhookedModel.addHook Host.ok (some "Model") (some driver) (some keepValue)
      = (true, keepModel)
    ∧ keepModel.addHook Host.ok (some "Model") (some driver) (some fixModel)
      = (true, hookedModel)
    ∧ registrations "Model" hookedModel.hooks = [("Model", { f := fixModel, target := driver })]
    ∧ (hookedModel.setObject Host.ok (some "Model") (some (.string "WD10".toList))).invoked
        = [{ cb := { f := fixModel, target := driver }, aKey := "Model",
             aValue := some (.string "WD10".toList) }] :=
  have hC := addHook_replaces Host.ok Host.ok Host.ok unhookedModel keepModel hookedModel
    "Model" driver driver keepValue fixModel rfl rfl
  ⟨rfl, rfl, hC.2.2.2.1 (by simp [OSDictionary.WF, unhookedModel]),
    (hC.2.2.2.2 hookedModel (some (.string "WD10".toList)) rfl).1⟩

/-- C14: for a key `k` with no callback registered, `addHook(k, c, f)`
followed by `removeHook(k)` gives back the dictionary it started from, the
side-table included, whether or not the registration succeeded; a
`setObject(k, v)` after that invokes no callback, does to the entries what
the underlying map's `setObject(k, v)` does, and a lookup of `k` then gives
the object `v` itself. -/
theorem addHook_removeHook (h h' : Host) (d : Dictionary) (k : OSSymbol)
    (c : Option OSObjectRef) (f : Option SetCallback) (v : Option OSObject)
    (hk : d.hooks.getObject (some k) = none) :
    ((d.addHook h (some k) c f).2.removeHook (some k)) = d
    ∧ (((d.addHook h (some k) c f).2.removeHook (some k)).setObject h' (some k) v).invoked = []
    ∧ (((d.addHook h (some k) c f).2.removeHook (some k)).setObject h' (some k) v).dict.entries
        = (d.entries.setObject (some k) v).2
    ∧ ∀ w, v = some w →
        (((d.addHook h (some k) c f).2.removeHook (some k)).setObject h' (some k)
          v).dict.entries.getObject (some k) = some w := by
  have hback : ((d.addHook h (some k) c f).2.removeHook (some k)) = d := by
    have hk' : OSDictionary.lookup k d.hooks.entries = none := hk
    have hnoop : OSDictionary.erase k d.hooks.entries = d.hooks.entries :=
      erase_of_lookup_none k _ hk'
    cases c with
    | none =>
      simp only [Dictionary.addHook, Callback.withFunc, Dictionary.removeHook,
        OSDictionary.removeObject, hnoop]
    | some c =>
      cases f with
      | none =>
        simp only [Dictionary.addHook, Callback.withFunc, Dictionary.removeHook,
          OSDictionary.removeObject, hnoop]
      | some f =>
        cases ha : h.OSTypeAlloc_Callback <;> cases hi : h.Callback_init <;>
          simp [Dictionary.addHook, Callback.withFunc, Dictionary.removeHook,
            OSDictionary.removeObject, OSDictionary.setObject, ha, hi, hnoop,
            erase_insert k _ _ hk']
  rw [hback, setObject_of_no_hook h' d k v hk]
  refine ⟨rfl, rfl, rfl, ?_⟩
  rintro w rfl
  exact (getObject_setObject_self d.entries k w).2

/-- Witness for C14: `fixModel` is registered on `Model` and removed again;
a set of `Model` to `"WD10"` then stores `"WD10"`. -/
theorem addHook_removeHook_witness :
    unhookedModel.hooks.getObject (some "Model") = none
    ∧ ((unhookedModel.addHook Host.ok (some "Model") (some driver)
        (some fixModel)).2.removeHook (some "Model")) = unhookedModel
    ∧ (((unhookedModel.addHook Host.ok (some "Model") (some driver)
        (some fixModel)).2.removeHook (some "Model")).setObject Host.ok (some "Model")
          (some (.string "WD10".toList))).dict.entries.getObject (some "Model")
        = some (.string "WD10".toList) :=
  have hC := addHook_removeHook Host.ok Host.ok unhookedModel "Model" (some driver)
    (some fixModel) (some (.string "WD10".toList)) rfl
  ⟨rfl, hC.1, hC.2.2.2 _ rfl⟩

/-- C15: with no allocation failure, `Dictionary::withDictionary` on a
dictionary `src` (plain or hookable) yields a `Dictionary` whose entries are
those of `src`, taken over as they are, and whose side-table is empty, so
that no `setObject` on the copy can invoke a callback; on `NULL` it returns
`NULL`. -/
theorem withDictionary_copies (h h' : Host) (src : PropertyTable) (hh : h.NoAllocFailure) :
    Dictionary.withDictionary h (some src)
      = some { entries := src.entries, hooks := OSDictionary.empty }
    ∧ Dictionary.withDictionary h none = none
    ∧ ∀ d, Dictionary.withDictionary h (some src) = some d →
        d.entries = src.entries
        ∧ d.hooks.entries = []
        ∧ ∀ aKey anObject, (d.setObject h' aKey anObject).invoked = [] := by
  have hcopy : Dictionary.withDictionary h (some src)
      = some { entries := src.entries, hooks := OSDictionary.empty } := by
    simp [Dictionary.withDictionary, hh.OSTypeAlloc_Dictionary, hh.OSDictionary_withCapacity,
      hh.initWithDictionary]
  refine ⟨hcopy, rfl, ?_⟩
  intro d hd
  rw [hcopy] at hd
  have e := (Option.some.inj hd).symm
  subst e
  refine ⟨rfl, rfl, ?_⟩
  intro aKey anObject
  cases aKey with
  | none => rfl
  | some k =>
    rw [setObject_of_no_hook h' { entries := src.entries, hooks := OSDictionary.empty } k
      anObject rfl]

/-- Witness for C15: the copy of the hooked dictionary `Model = "ST1000"`
holds `"ST1000"` as it stands and has no hook. -/
theorem withDictionary_copies_witness :
    Host.ok.NoAllocFailure
    ∧ Dictionary.withDictionary Host.ok (some (.hooked hookedModel)) = some unhookedModel :=
  ⟨Host.ok_noAllocFailure,
    (withDictionary_copies Host.ok Host.ok (.hooked hookedModel) Host.ok_noAllocFailure).1⟩

/-- C16: `removeObject` never changes the side-table and leaves the entry of
every key other than `k` as it was; the keys being distinct as libkern keeps
them, `k` has no entry afterwards. When a callback `cb` is registered for
`k`, a `setObject(k, v)` after `removeObject(k)` still invokes `cb` exactly
once and hands its result to the underlying map, so that an object it
returns is what a lookup of `k` then gives. -/
theorem removeObject_keeps_hooks (h : Host) (d : Dictionary) (k : OSSymbol) (cb : Callback)
    (v : Option OSObject) (hk : d.hooks.getObject (some k) = some cb) :
    (∀ aKey, (d.removeObject aKey).hooks = d.hooks)
    ∧ (∀ k', k' ≠ k →
        (d.removeObject (some k)).entries.getObject (some k') = d.entries.getObject (some k'))
    ∧ (d.entries.WF → (d.removeObject (some k)).entries.getObject (some k) = none)
    ∧ ((d.removeObject (some k)).setObject h (some k) v).invoked
        = [{ cb := cb, aKey := k, aValue := v }]
    ∧ ((d.removeObject (some k)).setObject h (some k) v).dict.entries
        = ((d.removeObject (some k)).entries.setObject (some k) (cb.f h cb.target k v)).2
    ∧ ∀ w, cb.f h cb.target k v = some w →
        ((d.removeObject (some k)).setObject h (some k) v).dict.entries.getObject (some k)
          = some w := by
  have hk' : (d.removeObject (some k)).hooks.getObject (some k) = some cb := hk
  rw [setObject_of_hook h (d.removeObject (some k)) k cb v hk']
  refine ⟨fun _ => rfl, ?_, ?_, rfl, rfl, ?_⟩
  · intro k' hne
    exact lookup_erase_ne k k' _ hne
  · intro hwf
    exact lookup_erase_self k _ hwf
  · intro w hw
    simp only [hw]
    exact (getObject_setObject_self _ k w).2

/-- Witness for C16: `Model` is removed from the hooked dictionary and set
again to `"WD10"`; `fixModel` runs and its rewrite is stored. -/
theorem removeObject_keeps_hooks_witness :
    hookedModel.hooks.getObject (some "Model") = some { f := fixModel, target := driver }
    ∧ (hookedModel.removeObject (some "Model")).entries.getObject (some "Model") = none
    ∧ ((hookedModel.removeObject (some "Model")).setObject Host.ok (some "Model")
        (some (.string "WD10".toList))).dict.entries.getObject (some "Model")
        = some (.string "APPLE SSD (WD10)".toList) :=
  have hC := removeObject_keeps_hooks Host.ok hookedModel "Model"
    { f := fixModel, target := driver } (some (.string "WD10".toList)) rfl
  ⟨rfl, hC.2.2.1 (by simp [OSDictionary.WF, hookedModel]),
    hC.2.2.2.2.2 (.string "APPLE SSD (WD10)".toList) (by decide)⟩

/-- C17: `addHook` returns `false` and leaves the dictionary, side-table and
entries, exactly as it was when the key, the callback or the context is
`NULL`; and when neither the allocation nor the `init` of the `Callback`
fails, `Callback::withFunc` returns `NULL` exactly when one of its two
arguments is `NULL`. -/
theorem addHook_rejects (h : Host) (d : Dictionary) (aKey : Option OSSymbol)
    (target : Option OSObjectRef) (cb : Option SetCallback) :
    (aKey = none ∨ cb = none ∨ target = none → d.addHook h aKey target cb = (false, d))
    ∧ (h.OSTypeAlloc_Callback = true → h.Callback_init = true →
        (Callback.withFunc h cb target = none ↔ cb = none ∨ target = none)) := by
  constructor
  · intro hbad
    cases aKey with
    | none => rfl
    | some k =>
      cases target with
      | none => simp [Dictionary.addHook, Callback.withFunc]
      | some t =>
        cases cb with
        | none => simp [Dictionary.addHook, Callback.withFunc]
        | some f => simp at hbad
  · intro ha hi
    cases target with
    | none => simp [Callback.withFunc]
    | some t =>
      cases cb with
      | none => simp [Callback.withFunc]
      | some f => simp [Callback.withFunc, ha, hi]

/-- Witness for C17: a `NULL` context on the hooked dictionary leaves the
registration of `Model` in place, and `withFunc` refuses a `NULL` context. -/
theorem addHook_rejects_witness :
    hookedModel.addHook Host.ok (some "Model") none (some keepValue) = (false, hookedModel)
    ∧ (Callback.withFunc Host.ok (some keepValue) none = none
        ↔ (some keepValue = none ∨ (none : Option OSObjectRef) = none)) :=
  have hC := addHook_rejects Host.ok hookedModel (some "Model") none (some keepValue)
  ⟨hC.1 (Or.inr (Or.inr rfl)), hC.2 rfl rfl⟩

/-! ## `fixModel` on values it does not rewrite -/

/-- C18: for every object pointer `v` that is not a string, `NULL` included,
`fixModel` returns `v` itself. -/
theorem fixModel_non_string (h : Host) (target : OSObjectRef) (aKey : OSSymbol)
    (v : Option OSObject) (hv : ∀ s, v ≠ some (.string s)) :
    fixModel h target aKey v = v :=
  fixModel_not_string h target aKey v hv

/-- Witness for C18: `NULL` and a non-string object, in a host where every
allocation would fail. -/
theorem fixModel_non_string_witness :
    fixModel { Host.ok with IOMalloc := fun _ => false, OSString_withCString := false }
        driver MODEL none = none
    ∧ fixModel Host.ok driver MODEL (some (.other 7)) = some (.other 7) :=
  ⟨fixModel_non_string _ driver MODEL none (fun _ e => nomatch e),
    fixModel_non_string Host.ok driver MODEL (some (.other 7)) (fun _ e => nomatch e)⟩

theorem fixModel_withCString_fail (h : Host) (target : OSObjectRef) (aKey : OSSymbol)
    (s : CString) (hp : ¬ PREFIX <+: s) (hlen : s.length + 12 ≤ 2147483647)
    (hm : ∀ n, h.IOMalloc n = true) (hs : h.OSString_withCString = false) :
    fixModel h target aKey (some (.string s)) = none := by
  rw [fixModel_rewrite h target aKey s hp hlen hm, hs]
  rfl

/-- C19, the failing input evaluated: `"WD10"` does not start with
`APPLE SSD`; when `IOMalloc` fails `fixModel` returns `"WD10"`, but when the
buffer is allocated and `OSString::withCString` fails it returns `NULL`, and
the hooked `setObject` of `Model` to `"WD10"` then reports failure and the
entry keeps its old value `"ST1000"`. -/
theorem fixModel_withCString_failure :
    ¬ PREFIX <+: "WD10".toList
    ∧ fixModel { Host.ok with IOMalloc := fun _ => false } driver MODEL
        (some (.string "WD10".toList)) = some (.string "WD10".toList)
    ∧ fixModel { Host.ok with OSString_withCString := false } driver MODEL
        (some (.string "WD10".toList)) = none
    ∧ (hookedModel.setObject { Host.ok with OSString_withCString := false }
        (some MODEL) (some (.string "WD10".toList))).result = false
    ∧ (hookedModel.setObject { Host.ok with OSString_withCString := false }
        (some MODEL) (some (.string "WD10".toList))).dict.entries.getObject (some MODEL)
        = some (.string "ST1000".toList) :=
  ⟨by decide, by decide, by decide, by decide, by decide⟩

/-! ## The `terminate` walk of `start` -/

theorem IsChain_nodup (r : Registry) :
    ∀ (c : List Node) (p : Option Node), r.IsChain p c → c.Nodup
  | [], _, _ => List.nodup_nil
  | n :: ns, _, hc => by
    have htail : r.IsChain (r.getProvider n) ns := hc.2
    refine List.nodup_cons.2 ⟨?_, IsChain_nodup r ns _ htail⟩
    exact not_mem_own_chain r n ns htail

theorem getTargetService_of_chain (h : Host) (r : Registry) (me : Node) (c : List Node)
    (fuel : Nat) (hc : r.IsChain (r.getProvider me) c) (hfuel : c.length < fuel)
    (hname : h.OSSymbol_withCStringNoCopy TARGET = true)
    (hclass : r.getMetaClassWithName TARGET = true) :
    getTargetService h r fuel me = some (firstTarget r c) := by
  simp [getTargetService, OSSymbol.withCStringNoCopy, hname, hclass,
    getTargetServiceLoop_eq r c fuel _ hc hfuel]

theorem terminateLoop_chain (o : Outcomes) (r : Registry) (tgt : Node) :
    ∀ (c : List Node) (fuel : Nat) (p : Option Node), r.IsChain p c →
      getTargetServiceLoop r r.getServiceRoot fuel p = some (some tgt) →
      terminateLoop o r tgt fuel p = some (terminateCalls o (belowTarget tgt c))
        ∧ ∃ rest, c = belowTarget tgt c ++ tgt :: rest
  | [], fuel, p, hc, hfound => by
    simp only [Registry.IsChain] at hc
    subst hc
    cases fuel <;> simp [getTargetServiceLoop] at hfound
  | n :: ns, 0, p, _, hfound => by simp [getTargetServiceLoop] at hfound
  | n :: ns, fuel + 1, p, hc, hfound => by
    simp only [Registry.IsChain] at hc
    obtain ⟨rfl, hc'⟩ := hc
    by_cases hn : n = tgt
    · subst hn
      exact ⟨by simp [terminateLoop, belowTarget, terminateCalls], ns, by simp [belowTarget]⟩
    · have hfound' : getTargetServiceLoop r r.getServiceRoot fuel (r.getProvider n)
          = some (some tgt) := by
        simp only [getTargetServiceLoop] at hfound
        split_ifs at hfound with h1 h2
        · exact absurd hfound (by simp)
        · exact absurd (Option.some.inj (Option.some.inj hfound)) hn
        · exact hfound
      obtain ⟨hloop, rest, hrest⟩ := terminateLoop_chain o r tgt ns fuel _ hc' hfound'
      refine ⟨by simp [terminateLoop, hn, hloop, belowTarget, terminateCalls], rest, ?_⟩
      have hb : belowTarget tgt (n :: ns) = n :: belowTarget tgt ns := by
        simp [belowTarget, hn]
      rw [hb, List.cons_append, ← hrest]

/-- C20: let `c` be the provider chain above the driver, on which the target
is the first node of the target class before the root. On the install path
(target not yet hooked and with a provider, `start` called with the driver's
provider) and with fuel for the chain, `start` returns, and its calls end
with one `terminate` for each node of `c` before the target, in chain order,
whatever the earlier `terminate` calls returned; these nodes are pairwise
distinct and are followed on the chain by the target; no other `terminate`
call is made; and none is made when the target is the driver's provider. -/
theorem start_terminates_below_target (h : Host) (o : Outcomes) (r : Registry) (fuel : Nat)
    (me tgt tgtParent : Node) (provider : Option Node) (c : List Node)
    (hc : r.IsChain (r.getProvider me) c) (hfuel : c.length < fuel)
    (hname : h.OSSymbol_withCStringNoCopy TARGET = true)
    (hclass : r.getMetaClassWithName TARGET = true)
    (hfirst : firstTarget r c = some tgt)
    (hplain : PropertyTable.asDictionary (r.service tgt).getPropertyTable = none)
    (hparent : r.getProvider tgt = some tgtParent)
    (hprovider : provider = r.getProvider me) :
    ∃ run before, NewIOBlockStorageDriver.start h o r fuel me provider = some run
      ∧ run.calls = before ++ terminateCalls o (belowTarget tgt c)
      ∧ (∀ n b, HostCall.terminate n b ∉ before)
      ∧ (belowTarget tgt c).Nodup
      ∧ (∃ rest, c = belowTarget tgt c ++ tgt :: rest)
      ∧ (r.getProvider me = some tgt → belowTarget tgt c = []) := by
  subst hprovider
  have ht : getTargetService h r fuel me = some (some tgt) := by
    rw [getTargetService_of_chain h r me c fuel hc hfuel hname hclass, hfirst]
  obtain ⟨hloop, rest, hrest⟩ := terminateLoop_chain o r tgt c fuel _ hc
    (getTargetService_found_loop h r fuel me tgt ht)
  refine ⟨_, (if r.isOpen tgtParent tgt then [.close tgtParent tgt] else [])
      ++ [.stop tgt tgtParent,
          .runPropertyAction tgt (hookProperties h (some ⟨me, true⟩) (some (r.service tgt))).1,
          .start tgt tgtParent (o.start tgt)],
    by simp only [NewIOBlockStorageDriver.start, ht, hplain, hparent, hloop,
        Option.isSome_none]; rfl,
    rfl, ?_, ?_, ⟨rest, hrest⟩, ?_⟩
  · intro n b hmem
    simp only [List.mem_append, List.mem_cons, List.mem_singleton, List.not_mem_nil,
      or_false] at hmem
    rcases hmem with hmem | hmem | hmem | hmem
    · split_ifs at hmem
      · simp at hmem
      · simp at hmem
    · cases hmem
    · cases hmem
    · cases hmem
  · exact (List.takeWhile_sublist _).nodup (IsChain_nodup r c _ hc)
  · intro hp
    cases c with
    | nil => rfl
    | cons n ns =>
      have hn : n = tgt := by
        have := hc.1
        rw [hp] at this
        exact (Option.some.inj this).symm
      simp [belowTarget, hn]

/-- Witness for C20: on the chain `driver → 2 → 5 → 3 (target) → root`, with
every `terminate` failing, `start` terminates `2` and then `5`. -/
theorem start_terminates_below_target_witness :
    longRegistry.IsChain (longRegistry.getProvider 1) [2, 5, 3, 4]
    ∧ firstTarget longRegistry [2, 5, 3, 4] = some 3
    ∧ terminateCalls Outcomes.terminateFails (belowTarget 3 [2, 5, 3, 4])
        = [.terminate 2 false, .terminate 5 false]
    ∧ ∃ run before,
        NewIOBlockStorageDriver.start Host.ok Outcomes.terminateFails longRegistry 5 1 (some 2)
          = some run
        ∧ run.calls
            = before ++ terminateCalls Outcomes.terminateFails (belowTarget 3 [2, 5, 3, 4])
        ∧ (∀ n b, HostCall.terminate n b ∉ before)
        ∧ (belowTarget 3 [2, 5, 3, 4]).Nodup
        ∧ (∃ rest, [2, 5, 3, 4] = belowTarget 3 [2, 5, 3, 4] ++ 3 :: rest)
        ∧ (longRegistry.getProvider 1 = some 3 → belowTarget 3 [2, 5, 3, 4] = []) :=
  have hc : longRegistry.IsChain (longRegistry.getProvider 1) [2, 5, 3, 4] :=
    ⟨rfl, rfl, rfl, rfl, rfl⟩
  ⟨hc, by decide, by decide,
    start_terminates_below_target Host.ok Outcomes.terminateFails longRegistry 5 1 3 4
      (some 2) [2, 5, 3, 4] hc (by decide) rfl rfl (by decide) rfl rfl rfl⟩

/-! ## Order of the host calls on the install path -/

/-- C21: on the install path (target found, not yet hooked and with a
provider, `start` called with the driver's provider) the host calls are, in
this order: `close` of the target on its provider exactly when that provider
reports the target as holding it open, `stop` of the target, the property
action `hookProperties` on the target, `start` of the target with its own
provider, and after these nothing but `terminate` calls. The registry
afterwards differs from the one before only by what that property action
left as the target's service, so the target's property table is replaced
nowhere but between its `stop` and its `start`. -/
theorem start_call_order (h : Host) (o : Outcomes) (r : Registry) (fuel : Nat)
    (me tgt tgtParent : Node) (provider : Option Node)
    (ht : getTargetService h r fuel me = some (some tgt))
    (hplain : PropertyTable.asDictionary (r.service tgt).getPropertyTable = none)
    (hparent : r.getProvider tgt = some tgtParent)
    (hprovider : provider = r.getProvider me) :
    ∃ run terminated, NewIOBlockStorageDriver.start h o r fuel me provider = some run
      ∧ run.calls
          = (if r.isOpen tgtParent tgt then [HostCall.close tgtParent tgt] else [])
            ++ [.stop tgt tgtParent,
                .runPropertyAction tgt
                  (hookProperties h (some ⟨me, true⟩) (some (r.service tgt))).1,
                .start tgt tgtParent (o.start tgt)]
            ++ terminated
      ∧ (∀ c ∈ terminated, ∃ n b, c = HostCall.terminate n b)
      ∧ run.registry
          = r.setService tgt (hookProperties h (some ⟨me, true⟩) (some (r.service tgt))).2
      ∧ ∀ n, n ≠ tgt → run.registry.service n = r.service n := by
  subst hprovider
  obtain ⟨cs, hcs, hall⟩ :=
    terminateLoop_of_found o r tgt fuel _ (getTargetService_found_loop h r fuel me tgt ht)
  refine ⟨_, cs,
    by simp only [NewIOBlockStorageDriver.start, ht, hplain, hparent, hcs,
        Option.isSome_none]; rfl,
    rfl, hall, rfl, ?_⟩
  intro n hn
  simp only [Registry.setService]
  split
  · simp [hn]
  · rfl

/-- Witness for C21: the sample tree with a plain target table, open on the
root; the driver is started with its provider `2`. -/
theorem start_call_order_witness :
    getTargetService Host.ok (sampleRegistry plainTarget) 4 1 = some (some 3)
    ∧ ∃ run,
        NewIOBlockStorageDriver.start Host.ok Outcomes.allTrue (sampleRegistry plainTarget)
          4 1 (some 2) = some run
        ∧ run.calls = [.close 4 3, .stop 3 4, .runPropertyAction 3 .kIOReturnSuccess,
                       .start 3 4 true, .terminate 2 true] :=
  have hC := start_call_order Host.ok Outcomes.allTrue (sampleRegistry plainTarget) 4 1 3 4
    (some 2) (by decide) rfl rfl rfl
  ⟨by decide, by
    obtain ⟨run, terminated, hrun, hcalls, -, -, -⟩ := hC
    refine ⟨run, hrun, ?_⟩
    have hrun' : NewIOBlockStorageDriver.start Host.ok Outcomes.allTrue
        (sampleRegistry plainTarget) 4 1 (some 2)
        = some { result := false
                 registry := (sampleRegistry plainTarget).setService 3
                   (hookProperties Host.ok (some ⟨1, true⟩) (some plainTarget)).2
                 calls := [.close 4 3, .stop 3 4, .runPropertyAction 3 .kIOReturnSuccess,
                           .start 3 4 true, .terminate 2 true] } := rfl
    rw [hrun'] at hrun
    rw [← Option.some.inj hrun]⟩

/-! ## Independence of entries and hooks -/

theorem getObject_setObject_ne {α : Type} (d : OSDictionary α) (aKey : Option OSSymbol)
    (v : Option α) (k' : OSSymbol) (hne : aKey ≠ some k') :
    (d.setObject aKey v).2.getObject (some k') = d.getObject (some k') := by
  cases aKey with
  | none => rfl
  | some k =>
    cases v with
    | none => rfl
    | some w =>
      have hne' : k' ≠ k := fun e => hne (congrArg some e.symm)
      exact lookup_insert_ne k k' w _ hne'

theorem getObject_removeObject_ne {α : Type} (d : OSDictionary α) (aKey : Option OSSymbol)
    (k' : OSSymbol) (hne : aKey ≠ some k') :
    (d.removeObject aKey).getObject (some k') = d.getObject (some k') := by
  cases aKey with
  | none => rfl
  | some k =>
    have hne' : k' ≠ k := fun e => hne (congrArg some e.symm)
    exact lookup_erase_ne k k' _ hne'

theorem setObject_hooks (h : Host) (d : Dictionary) (aKey : Option OSSymbol)
    (v : Option OSObject) : (d.setObject h aKey v).dict.hooks = d.hooks := by
  unfold Dictionary.setObject
  split
  · rfl
  · split <;> rfl

theorem setObject_entries_ne (h : Host) (d : Dictionary) (aKey : Option OSSymbol)
    (v : Option OSObject) (k' : OSSymbol) (hne : aKey ≠ some k') :
    (d.setObject h aKey v).dict.entries.getObject (some k') = d.entries.getObject (some k') := by
  unfold Dictionary.setObject
  split
  · rfl
  · split
    · exact getObject_setObject_ne d.entries _ _ k' hne
    · exact getObject_setObject_ne d.entries _ _ k' hne

theorem addHook_frame (h : Host) (d : Dictionary) (aKey : Option OSSymbol)
    (c : Option OSObjectRef) (f : Option SetCallback) (k' : OSSymbol)
    (hne : aKey ≠ some k') :
    (d.addHook h aKey c f).2.entries = d.entries
    ∧ (d.addHook h aKey c f).2.hooks.getObject (some k') = d.hooks.getObject (some k') := by
  unfold Dictionary.addHook
  split
  · exact ⟨rfl, rfl⟩
  · split
    · exact ⟨rfl, getObject_setObject_ne d.hooks _ _ k' hne⟩
    · exact ⟨rfl, rfl⟩

/-- C23: entries and hook registrations are independent. For every
dictionary and every key argument `aKey` (`NULL` included), `setObject` and
`removeObject` leave the side-table as it was and leave the entry of every
key `k'` other than `aKey` as it was; `addHook` and `removeHook` leave the
entries as they were and leave the registration of every key `k'` other than
`aKey` as it was. -/
theorem entries_hooks_independent (h : Host) (d : Dictionary) (aKey : Option OSSymbol)
    (v : Option OSObject) (c : Option OSObjectRef) (f : Option SetCallback) (k' : OSSymbol)
    (hne : aKey ≠ some k') :
    (d.setObject h aKey v).dict.hooks = d.hooks
    ∧ (d.setObject h aKey v).dict.entries.getObject (some k') = d.entries.getObject (some k')
    ∧ (d.removeObject aKey).hooks = d.hooks
    ∧ (d.removeObject aKey).entries.getObject (some k') = d.entries.getObject (some k')
    ∧ (d.addHook h aKey c f).2.entries = d.entries
    ∧ (d.addHook h aKey c f).2.hooks.getObject (some k') = d.hooks.getObject (some k')
    ∧ (d.removeHook aKey).entries = d.entries
    ∧ (d.removeHook aKey).hooks.getObject (some k') = d.hooks.getObject (some k') := by
  refine ⟨setObject_hooks h d aKey v, setObject_entries_ne h d aKey v k' hne, rfl,
    getObject_removeObject_ne d.entries aKey k' hne, (addHook_frame h d aKey c f k' hne).1,
    (addHook_frame h d aKey c f k' hne).2, ?_, ?_⟩
  · cases aKey <;> rfl
  · cases aKey with
    | none => rfl
    | some k => exact getObject_removeObject_ne d.hooks (some k) k' hne

/-- Witness for C23: operations on `Revision` leave the entry and the hook
of `Model` in the hooked dictionary alone. -/
theorem entries_hooks_independent_witness :
    (some "Revision" : Option OSSymbol) ≠ some "Model"
    ∧ (hookedModel.setObject Host.ok (some "Revision")
        (some (.string "1.0".toList))).dict.entries.getObject (some "Model")
        = some (.string "ST1000".toList)
    ∧ (hookedModel.addHook Host.ok (some "Revision") (some driver)
        (some keepValue)).2.hooks.getObject (some "Model")
        = some { f := fixModel, target := driver } :=
  have hne : (some "Revision" : Option OSSymbol) ≠ some "Model" := by decide
  have hC := entries_hooks_independent Host.ok hookedModel (some "Revision")
    (some (.string "1.0".toList)) (some driver) (some keepValue) "Model" hne
  ⟨hne, hC.2.1, hC.2.2.2.2.2.1⟩

/-! ## Retain counts of a hooked `setObject` -/

theorem counted_fixModel_null (h : Host) (fresh : Addr) (target : OSObjectRef)
    (aKey : OSSymbol) : Counted.fixModel h fresh target aKey none = (none, []) := rfl

theorem counted_fixModel_cases (h : Host) (fresh : Addr) (target : OSObjectRef)
    (aKey : OSSymbol) (p : Pointer) :
    Counted.fixModel h fresh target aKey (some p) = (some p, [.retain p.addr])
    ∨ (∃ t, Counted.fixModel h fresh target aKey (some p)
          = (some { addr := fresh, object := .string t },
              [.retain p.addr, .create fresh, .release p.addr]))
    ∨ Counted.fixModel h fresh target aKey (some p)
        = (none, [.retain p.addr, .release p.addr]) := by
  obtain ⟨a, o⟩ := p
  cases o with
  | other n => exact Or.inl rfl
  | string s =>
    unfold Counted.fixModel
    dsimp only
    split_ifs with h1 h2 h3 h4
    · exact Or.inr (Or.inl ⟨_, rfl⟩)
    · exact Or.inr (Or.inr rfl)
    · exact Or.inl rfl
    · exact Or.inl rfl
    · exact Or.inl rfl

theorem counted_fixModel_kept (h : Host) (fresh : Addr) (target : OSObjectRef)
    (aKey : OSSymbol) (p : Pointer)
    (hp : (∀ s, p.object ≠ .string s) ∨ ∃ s, p.object = .string s ∧ PREFIX <+: s) :
    Counted.fixModel h fresh target aKey (some p) = (some p, [.retain p.addr]) := by
  obtain ⟨a, o⟩ := p
  cases o with
  | other n => rfl
  | string s =>
    rcases hp with hp | ⟨s', hs', hpre⟩
    · exact absurd rfl (hp s)
    · have e : s = s' := OSObject.string.inj hs'
      subst e
      have h0 : strncmp PREFIX s (strlen PREFIX) = 0 := (strncmp_eq_zero_iff PREFIX s).2 hpre
      simp [Counted.fixModel, h0]

theorem counted_fixModel_object (h : Host) (fresh : Addr) (target : OSObjectRef)
    (aKey : OSSymbol) (v : Option Pointer) :
    (Counted.fixModel h fresh target aKey v).1.map Pointer.object
      = RenameDisk.fixModel h target aKey (v.map Pointer.object) := by
  cases v with
  | none => rfl
  | some p =>
    obtain ⟨a, o⟩ := p
    cases o with
    | other n => rfl
    | string s =>
      simp only [Counted.fixModel, RenameDisk.fixModel, Option.map_some']
      split_ifs <;> rfl

theorem counted_setObject_of_hook (h : Host) (fresh : Addr) (d : Counted.Dictionary)
    (k : OSSymbol) (cb : Counted.Callback) (v : Option Pointer)
    (hk : OSDictionary.getObject d.hooks (some k) = some cb) :
    Counted.Dictionary.setObject h fresh d (some k) v
      = { result := (Counted.OSDictionary.setObject d.entries (some k)
                      (cb.f h fresh cb.target k v).1).1
          dict := { d with entries := (Counted.OSDictionary.setObject d.entries (some k)
                      (cb.f h fresh cb.target k v).1).2.1 }
          events := [.retain cb.addr] ++ (cb.f h fresh cb.target k v).2 ++ [.release cb.addr]
                      ++ (Counted.OSDictionary.setObject d.entries (some k)
                            (cb.f h fresh cb.target k v).1).2.2
                      ++ Counted.OSSafeRelease (cb.f h fresh cb.target k v).1 } := by
  simp only [Counted.Dictionary.setObject, hk]

/-- The counted embedding agrees with the embedding on objects: with
`fixModel` registered on `Model` in both, a `setObject` of `Model` returns
the same result in both, and the pointer stored by the counted one holds the
object stored by the other. -/
theorem counted_setObject_refines (h : Host) (fresh cbAddr : Addr) (target : OSObjectRef)
    (d : Counted.Dictionary) (dv : RenameDisk.Dictionary) (v : Option Pointer)
    (hk : OSDictionary.getObject d.hooks (some MODEL)
      = some { addr := cbAddr, f := Counted.fixModel, target := target })
    (hkv : dv.hooks.getObject (some MODEL) = some { f := RenameDisk.fixModel, target := target }) :
    (Counted.Dictionary.setObject h fresh d (some MODEL) v).result
      = (dv.setObject h (some MODEL) (v.map Pointer.object)).result
    ∧ ((Counted.Dictionary.setObject h fresh d (some MODEL) v).result = true →
        ((Counted.Dictionary.setObject h fresh d (some MODEL) v).dict.entries.getObject
            (some MODEL)).map Pointer.object
          = (dv.setObject h (some MODEL) (v.map Pointer.object)).dict.entries.getObject
              (some MODEL)) := by
  have e := counted_fixModel_object h fresh target MODEL v
  rw [counted_setObject_of_hook h fresh d MODEL _ v hk,
    setObject_of_hook h dv MODEL _ (v.map Pointer.object) hkv]
  simp only [← e]
  cases hret : (Counted.fixModel h fresh target MODEL v).1 with
  | none => simp [Counted.OSDictionary.setObject, OSDictionary.setObject]
  | some q =>
    simp [Counted.OSDictionary.setObject, OSDictionary.setObject, OSDictionary.getObject,
      lookup_insert_self]

theorem counted_setObject_kept (h : Host) (fresh cbAddr : Addr) (target : OSObjectRef)
    (d : Counted.Dictionary) (p : Pointer)
    (hk : OSDictionary.getObject d.hooks (some MODEL)
      = some { addr := cbAddr, f := Counted.fixModel, target := target })
    (hfix : Counted.fixModel h fresh target MODEL (some p) = (some p, [.retain p.addr])) :
    Counted.Dictionary.setObject h fresh d (some MODEL) (some p)
      = { result := true
          dict := { d with entries := ⟨OSDictionary.insert MODEL p d.entries.entries⟩ }
          events := [.retain cbAddr, .retain p.addr, .release cbAddr, .retain p.addr]
            ++ Counted.OSSafeRelease (OSDictionary.lookup MODEL d.entries.entries)
            ++ [.release p.addr] } := by
  rw [counted_setObject_of_hook h fresh d MODEL _ _ hk]
  simp [hfix, Counted.OSDictionary.setObject, Counted.OSSafeRelease]

theorem counted_setObject_replaced (h : Host) (fresh cbAddr : Addr) (target : OSObjectRef)
    (d : Counted.Dictionary) (p : Pointer) (t : CString)
    (hk : OSDictionary.getObject d.hooks (some MODEL)
      = some { addr := cbAddr, f := Counted.fixModel, target := target })
    (hfix : Counted.fixModel h fresh target MODEL (some p)
      = (some { addr := fresh, object := .string t },
          [.retain p.addr, .create fresh, .release p.addr])) :
    Counted.Dictionary.setObject h fresh d (some MODEL) (some p)
      = { result := true
          dict := { d with entries :=
            ⟨OSDictionary.insert MODEL { addr := fresh, object := .string t }
              d.entries.entries⟩ }
          events := [.retain cbAddr, .retain p.addr, .create fresh, .release p.addr,
                     .release cbAddr, .retain fresh]
            ++ Counted.OSSafeRelease (OSDictionary.lookup MODEL d.entries.entries)
            ++ [.release fresh] } := by
  rw [counted_setObject_of_hook h fresh d MODEL _ _ hk]
  simp [hfix, Counted.OSDictionary.setObject, Counted.OSSafeRelease]

theorem counted_setObject_failed (h : Host) (fresh cbAddr : Addr) (target : OSObjectRef)
    (d : Counted.Dictionary) (p : Pointer)
    (hk : OSDictionary.getObject d.hooks (some MODEL)
      = some { addr := cbAddr, f := Counted.fixModel, target := target })
    (hfix : Counted.fixModel h fresh target MODEL (some p)
      = (none, [.retain p.addr, .release p.addr])) :
    Counted.Dictionary.setObject h fresh d (some MODEL) (some p)
      = { result := false, dict := d
          events := [.retain cbAddr, .retain p.addr, .release p.addr, .release cbAddr] } := by
  rw [counted_setObject_of_hook h fresh d MODEL _ _ hk]
  simp [hfix, Counted.OSDictionary.setObject, Counted.OSSafeRelease]

theorem counted_setObject_null (h : Host) (fresh cbAddr : Addr) (target : OSObjectRef)
    (d : Counted.Dictionary)
    (hk : OSDictionary.getObject d.hooks (some MODEL)
      = some { addr := cbAddr, f := Counted.fixModel, target := target }) :
    Counted.Dictionary.setObject h fresh d (some MODEL) none
      = { result := false, dict := d, events := [.retain cbAddr, .release cbAddr] } := by
  rw [counted_setObject_of_hook h fresh d MODEL _ _ hk]
  simp [counted_fixModel_null, Counted.OSDictionary.setObject, Counted.OSSafeRelease]

theorem counts_kept (c₀ : RetainCounts) (cbAddr : Addr) (p : Pointer) (old : Option Pointer)
    (hnew : ∀ q, old = some q → q.addr ≠ p.addr) :
    c₀.after ([.retain cbAddr, .retain p.addr, .release cbAddr, .retain p.addr]
        ++ Counted.OSSafeRelease old ++ [.release p.addr]) p.addr = c₀ p.addr + 1 := by
  obtain ⟨pa, po⟩ := p
  cases old with
  | none =>
    simp only [Counted.OSSafeRelease, RetainCounts.after, List.append_nil, List.cons_append,
      List.nil_append, List.foldl_cons, List.foldl_nil, RefEvent.apply, reduceIte]
    split_ifs <;> subst_vars <;> omega
  | some q =>
    obtain ⟨qa, qo⟩ := q
    have hq : qa ≠ pa := hnew _ rfl
    simp only [Counted.OSSafeRelease, RetainCounts.after, List.cons_append,
      List.nil_append, List.foldl_cons, List.foldl_nil, RefEvent.apply, reduceIte]
    split_ifs <;> subst_vars <;> first | omega | contradiction

theorem counts_replaced (c₀ : RetainCounts) (cbAddr fresh : Addr) (p : Pointer)
    (old : Option Pointer) (hnew : ∀ q, old = some q → q.addr ≠ p.addr)
    (hfresh₁ : fresh ≠ p.addr) (hfresh₂ : fresh ≠ cbAddr)
    (hfresh₃ : ∀ q, old = some q → q.addr ≠ fresh) :
    c₀.after ([.retain cbAddr, .retain p.addr, .create fresh, .release p.addr,
        .release cbAddr, .retain fresh] ++ Counted.OSSafeRelease old ++ [.release fresh]) fresh
      = 1
    ∧ c₀.after ([.retain cbAddr, .retain p.addr, .create fresh, .release p.addr,
        .release cbAddr, .retain fresh] ++ Counted.OSSafeRelease old ++ [.release fresh]) p.addr
      = c₀ p.addr := by
  obtain ⟨pa, po⟩ := p
  cases old with
  | none =>
    simp only [Counted.OSSafeRelease, RetainCounts.after, List.append_nil, List.cons_append,
      List.nil_append, List.foldl_cons, List.foldl_nil, RefEvent.apply, reduceIte]
    constructor <;> split_ifs <;> subst_vars <;> first | omega | contradiction
  | some q =>
    obtain ⟨qa, qo⟩ := q
    have hq : qa ≠ pa := hnew _ rfl
    have hq' : qa ≠ fresh := hfresh₃ _ rfl
    simp only [Counted.OSSafeRelease, RetainCounts.after, List.cons_append,
      List.nil_append, List.foldl_cons, List.foldl_nil, RefEvent.apply, reduceIte]
    constructor <;> split_ifs <;> subst_vars <;> first | omega | contradiction

theorem counts_failed (c₀ : RetainCounts) (cbAddr : Addr) (p : Pointer) (a : Addr) :
    c₀.after [.retain cbAddr, .retain p.addr, .release p.addr, .release cbAddr] a = c₀ a := by
  obtain ⟨pa, po⟩ := p
  simp only [RetainCounts.after, List.foldl_cons, List.foldl_nil, RefEvent.apply, reduceIte]
  split_ifs <;> subst_vars <;> omega

theorem counts_null (c₀ : RetainCounts) (cbAddr : Addr) (a : Addr) :
    c₀.after [.retain cbAddr, .release cbAddr] a = c₀ a := by
  simp only [RetainCounts.after, List.foldl_cons, List.foldl_nil, RefEvent.apply, reduceIte]
  split_ifs <;> subst_vars <;> omega

theorem live_kept (c₀ : RetainCounts) (cbAddr : Addr) (p : Pointer) (old : Option Pointer)
    (hnonneg : ∀ a, 0 ≤ c₀ a) (hheld : ∀ q, old = some q → 1 ≤ c₀ q.addr) :
    ReleasesLive c₀ ([.retain cbAddr, .retain p.addr, .release cbAddr, .retain p.addr]
        ++ Counted.OSSafeRelease old ++ [.release p.addr]) := by
  obtain ⟨pa, po⟩ := p
  have h₁ := hnonneg cbAddr
  have h₂ := hnonneg pa
  cases old with
  | none =>
    simp only [Counted.OSSafeRelease, List.append_nil, List.cons_append, List.nil_append,
      ReleasesLive, RefEvent.apply, RefEvent.release.injEq, forall_eq', and_true,
      reduceCtorEq, false_implies, implies_true, true_and, reduceIte]
    refine ⟨?_, ?_⟩ <;> split_ifs <;> subst_vars <;> omega
  | some q =>
    obtain ⟨qa, qo⟩ := q
    have h₃ : 1 ≤ c₀ qa := hheld _ rfl
    simp only [Counted.OSSafeRelease, List.cons_append, List.nil_append,
      ReleasesLive, RefEvent.apply, RefEvent.release.injEq, forall_eq', and_true,
      reduceCtorEq, false_implies, implies_true, true_and, reduceIte]
    refine ⟨?_, ?_, ?_⟩ <;> split_ifs <;> subst_vars <;> omega

theorem live_replaced (c₀ : RetainCounts) (cbAddr fresh : Addr) (p : Pointer)
    (old : Option Pointer) (hnonneg : ∀ a, 0 ≤ c₀ a)
    (hheld : ∀ q, old = some q → 1 ≤ c₀ q.addr)
    (hfresh₁ : fresh ≠ p.addr) (hfresh₂ : fresh ≠ cbAddr)
    (hfresh₃ : ∀ q, old = some q → q.addr ≠ fresh) :
    ReleasesLive c₀ ([.retain cbAddr, .retain p.addr, .create fresh, .release p.addr,
        .release cbAddr, .retain fresh] ++ Counted.OSSafeRelease old ++ [.release fresh]) := by
  obtain ⟨pa, po⟩ := p
  have h₁ := hnonneg cbAddr
  have h₂ := hnonneg pa
  cases old with
  | none =>
    simp only [Counted.OSSafeRelease, List.append_nil, List.cons_append, List.nil_append,
      ReleasesLive, RefEvent.apply, RefEvent.release.injEq, forall_eq', and_true,
      reduceCtorEq, false_implies, implies_true, true_and, reduceIte]
    refine ⟨?_, ?_, ?_⟩ <;> split_ifs <;> subst_vars <;> first | omega | contradiction
  | some q =>
    obtain ⟨qa, qo⟩ := q
    have h₃ : 1 ≤ c₀ qa := hheld _ rfl
    have h₄ : qa ≠ fresh := hfresh₃ _ rfl
    simp only [Counted.OSSafeRelease, List.cons_append, List.nil_append,
      ReleasesLive, RefEvent.apply, RefEvent.release.injEq, forall_eq', and_true,
      reduceCtorEq, false_implies, implies_true, true_and, reduceIte]
    refine ⟨?_, ?_, ?_, ?_⟩ <;> split_ifs <;> subst_vars <;> first | omega | contradiction

theorem live_failed (c₀ : RetainCounts) (cbAddr : Addr) (p : Pointer)
    (hnonneg : ∀ a, 0 ≤ c₀ a) :
    ReleasesLive c₀ [.retain cbAddr, .retain p.addr, .release p.addr, .release cbAddr] := by
  obtain ⟨pa, po⟩ := p
  have h₁ := hnonneg cbAddr
  have h₂ := hnonneg pa
  simp only [ReleasesLive, RefEvent.apply, RefEvent.release.injEq, forall_eq', and_true,
    reduceCtorEq, false_implies, implies_true, true_and, reduceIte]
  refine ⟨?_, ?_⟩ <;> split_ifs <;> subst_vars <;> omega

theorem live_null (c₀ : RetainCounts) (cbAddr : Addr) (hnonneg : ∀ a, 0 ≤ c₀ a) :
    ReleasesLive c₀ [.retain cbAddr, .release cbAddr] := by
  have h₁ := hnonneg cbAddr
  simp only [ReleasesLive, RefEvent.apply, RefEvent.release.injEq, forall_eq', and_true,
    reduceCtorEq, false_implies, implies_true, true_and, reduceIte]
  omega

/-- Counterexample to C22 as stated: the value set is the object already
stored under `Model`. A non-string object at address `10` ends up stored
itself and its retain count is what it was, not one more; a string at
address `10` that is not prefixed is replaced by a synthesized string and its
retain count is one less than it was, not unchanged. -/
theorem setObject_retainCounts_counterexample :
    (Counted.Dictionary.setObject Host.ok 30 (countedModel ⟨10, .other 7⟩) (some MODEL)
        (some ⟨10, .other 7⟩)).dict.entries.getObject (some MODEL) = some ⟨10, .other 7⟩
    ∧ sampleCounts.after
        (Counted.Dictionary.setObject Host.ok 30 (countedModel ⟨10, .other 7⟩) (some MODEL)
          (some ⟨10, .other 7⟩)).events 10 = sampleCounts 10
    ∧ (Counted.Dictionary.setObject Host.ok 30 (countedModel ⟨10, .string "ST1000".toList⟩)
        (some MODEL) (some ⟨10, .string "ST1000".toList⟩)).dict.entries.getObject (some MODEL)
        = some ⟨30, .string "APPLE SSD (ST1000)".toList⟩
    ∧ sampleCounts.after
        (Counted.Dictionary.setObject Host.ok 30 (countedModel ⟨10, .string "ST1000".toList⟩)
          (some MODEL) (some ⟨10, .string "ST1000".toList⟩)).events 10
        = sampleCounts 10 - 1 := by
  refine ⟨by decide, by decide, by decide, by decide⟩

/-- C22, amended: retain counts are a state changed by the events of the
call. Let `fixModel` be registered on `Model`, let the value `p` set not be
the object currently stored under `Model`, let the address of a newly
created string be unused, and let the counts be non-negative with the stored
object holding at least the map's reference. Then, `r` being what `fixModel`
returns: if `r` is `p` itself, which is the case when `p` is not a string or
is already prefixed, `p` is stored and its count is one more than before; if
`r` is another object, that is the synthesized string, it is stored with
count exactly `1` and the count of `p` is what it was; if `r` is `NULL` the
store fails, the entries are untouched and every count is what it was. A
`NULL` value fails the same way. In every case each `release` is made on an
object whose count is positive at that moment. -/
theorem setObject_retainCounts (h : Host) (fresh cbAddr : Addr) (target : OSObjectRef)
    (d : Counted.Dictionary) (p : Pointer) (c₀ : RetainCounts)
    (hk : OSDictionary.getObject d.hooks (some MODEL)
      = some { addr := cbAddr, f := Counted.fixModel, target := target })
    (hnew : ∀ q, OSDictionary.getObject d.entries (some MODEL) = some q → q.addr ≠ p.addr)
    (hfresh₁ : fresh ≠ p.addr) (hfresh₂ : fresh ≠ cbAddr)
    (hfresh₃ : ∀ q, OSDictionary.getObject d.entries (some MODEL) = some q → q.addr ≠ fresh)
    (hnonneg : ∀ a, 0 ≤ c₀ a)
    (hheld : ∀ q, OSDictionary.getObject d.entries (some MODEL) = some q → 1 ≤ c₀ q.addr) :
    ((Counted.fixModel h fresh target MODEL (some p)).1 = some p →
        (Counted.Dictionary.setObject h fresh d (some MODEL) (some p)).result = true
        ∧ (Counted.Dictionary.setObject h fresh d (some MODEL)
            (some p)).dict.entries.getObject (some MODEL) = some p
        ∧ c₀.after (Counted.Dictionary.setObject h fresh d (some MODEL) (some p)).events p.addr
            = c₀ p.addr + 1)
    ∧ ((∀ s, p.object ≠ .string s) ∨ (∃ s, p.object = .string s ∧ PREFIX <+: s) →
        (Counted.fixModel h fresh target MODEL (some p)).1 = some p)
    ∧ (∀ q, (Counted.fixModel h fresh target MODEL (some p)).1 = some q → q ≠ p →
        q.addr = fresh
        ∧ (Counted.Dictionary.setObject h fresh d (some MODEL) (some p)).result = true
        ∧ (Counted.Dictionary.setObject h fresh d (some MODEL)
            (some p)).dict.entries.getObject (some MODEL) = some q
        ∧ c₀.after (Counted.Dictionary.setObject h fresh d (some MODEL) (some p)).events fresh
            = 1
        ∧ c₀.after (Counted.Dictionary.setObject h fresh d (some MODEL) (some p)).events p.addr
            = c₀ p.addr)
    ∧ ((Counted.fixModel h fresh target MODEL (some p)).1 = none →
        (Counted.Dictionary.setObject h fresh d (some MODEL) (some p)).result = false
        ∧ (Counted.Dictionary.setObject h fresh d (some MODEL) (some p)).dict.entries
            = d.entries
        ∧ ∀ a, c₀.after
            (Counted.Dictionary.setObject h fresh d (some MODEL) (some p)).events a = c₀ a)
    ∧ ((Counted.Dictionary.setObject h fresh d (some MODEL) none).result = false
        ∧ (Counted.Dictionary.setObject h fresh d (some MODEL) none).dict.entries = d.entries
        ∧ (∀ a, c₀.after (Counted.Dictionary.setObject h fresh d (some MODEL) none).events a
            = c₀ a)
        ∧ ReleasesLive c₀ (Counted.Dictionary.setObject h fresh d (some MODEL) none).events)
    ∧ ReleasesLive c₀
        (Counted.Dictionary.setObject h fresh d (some MODEL) (some p)).events := by
  have hnull := counted_setObject_null h fresh cbAddr target d hk
  refine ⟨?_, ?_, ?_, ?_, ?_, ?_⟩
  · intro hret
    rcases counted_fixModel_cases h fresh target MODEL p with hA | ⟨t, hB⟩ | hC
    · rw [counted_setObject_kept h fresh cbAddr target d p hk hA]
      exact ⟨rfl, lookup_insert_self MODEL p _, counts_kept c₀ cbAddr p _ hnew⟩
    · rw [hB] at hret
      exact absurd (congrArg Pointer.addr (Option.some.inj hret)) hfresh₁
    · rw [hC] at hret
      exact absurd hret (by simp)
  · intro hp
    rw [counted_fixModel_kept h fresh target MODEL p hp]
  · intro q hret hq
    rcases counted_fixModel_cases h fresh target MODEL p with hA | ⟨t, hB⟩ | hC
    · rw [hA] at hret
      exact absurd (Option.some.inj hret).symm hq
    · rw [counted_setObject_replaced h fresh cbAddr target d p t hk hB]
      rw [hB] at hret
      have e := Option.some.inj hret
      subst e
      exact ⟨rfl, rfl, lookup_insert_self MODEL _ _,
        (counts_replaced c₀ cbAddr fresh p _ hnew hfresh₁ hfresh₂ hfresh₃).1,
        (counts_replaced c₀ cbAddr fresh p _ hnew hfresh₁ hfresh₂ hfresh₃).2⟩
    · rw [hC] at hret
      exact absurd hret (by simp)
  · intro hret
    rcases counted_fixModel_cases h fresh target MODEL p with hA | ⟨t, hB⟩ | hC
    · rw [hA] at hret
      exact absurd hret (by simp)
    · rw [hB] at hret
      exact absurd hret (by simp)
    · rw [counted_setObject_failed h fresh cbAddr target d p hk hC]
      exact ⟨rfl, rfl, counts_failed c₀ cbAddr p⟩
  · rw [hnull]
    exact ⟨rfl, rfl, counts_null c₀ cbAddr, live_null c₀ cbAddr hnonneg⟩
  · rcases counted_fixModel_cases h fresh target MODEL p with hA | ⟨t, hB⟩ | hC
    · rw [counted_setObject_kept h fresh cbAddr target d p hk hA]
      exact live_kept c₀ cbAddr p _ hnonneg hheld
    · rw [counted_setObject_replaced h fresh cbAddr target d p t hk hB]
      exact live_replaced c₀ cbAddr fresh p _ hnonneg hheld hfresh₁ hfresh₂ hfresh₃
    · rw [counted_setObject_failed h fresh cbAddr target d p hk hC]
      exact live_failed c₀ cbAddr p hnonneg

theorem sampleCounts_nonneg (a : Addr) : 0 ≤ sampleCounts a := by
  unfold sampleCounts
  split_ifs <;> decide

theorem countedModel_stored (old q : Pointer)
    (hq : OSDictionary.getObject (countedModel old).entries (some MODEL) = some q) :
    q = old := by
  have e : OSDictionary.getObject (countedModel old).entries (some MODEL) = some old := by
    simp [countedModel, OSDictionary.getObject, OSDictionary.lookup, MODEL]
  rw [e] at hq
  exact (Option.some.inj hq).symm

/-- Witness for C22: the dictionary holds a string at address `10` under
`Model`. Setting a non-string object at address `11` raises its count by one;
setting the string `"WD10"` at address `11` stores a new string at address
`30` with count `1` and leaves the count at `11` as it was. -/
theorem setObject_retainCounts_witness :
    sampleCounts.after (Counted.Dictionary.setObject Host.ok 30
        (countedModel ⟨10, .string "ST1000".toList⟩) (some MODEL)
        (some ⟨11, .other 7⟩)).events 11 = sampleCounts 11 + 1
    ∧ (Counted.Dictionary.setObject Host.ok 30
        (countedModel ⟨10, .string "ST1000".toList⟩) (some MODEL)
        (some ⟨11, .string "WD10".toList⟩)).dict.entries.getObject (some MODEL)
        = some ⟨30, .string "APPLE SSD (WD10)".toList⟩
    ∧ sampleCounts.after (Counted.Dictionary.setObject Host.ok 30
        (countedModel ⟨10, .string "ST1000".toList⟩) (some MODEL)
        (some ⟨11, .string "WD10".toList⟩)).events 30 = 1
    ∧ sampleCounts.after (Counted.Dictionary.setObject Host.ok 30
        (countedModel ⟨10, .string "ST1000".toList⟩) (some MODEL)
        (some ⟨11, .string "WD10".toList⟩)).events 11 = sampleCounts 11 :=
  have hnew : ∀ (p : Pointer), p.addr = 11 → ∀ q,
      OSDictionary.getObject (countedModel ⟨10, .string "ST1000".toList⟩).entries (some MODEL)
        = some q → q.addr ≠ p.addr := by
    intro p hp q hq
    rw [countedModel_stored _ q hq, hp]
    decide
  have hfresh : ∀ q,
      OSDictionary.getObject (countedModel ⟨10, .string "ST1000".toList⟩).entries (some MODEL)
        = some q → q.addr ≠ 30 := by
    intro q hq
    rw [countedModel_stored _ q hq]
    decide
  have hheld : ∀ q,
      OSDictionary.getObject (countedModel ⟨10, .string "ST1000".toList⟩).entries (some MODEL)
        = some q → 1 ≤ sampleCounts q.addr := by
    intro q hq
    rw [countedModel_stored _ q hq]
    decide
  have hC₁ := setObject_retainCounts Host.ok 30 20 driver
    (countedModel ⟨10, .string "ST1000".toList⟩) ⟨11, .other 7⟩ sampleCounts rfl
    (hnew _ rfl) (by decide) (by decide) hfresh sampleCounts_nonneg hheld
  have hC₂ := setObject_retainCounts Host.ok 30 20 driver
    (countedModel ⟨10, .string "ST1000".toList⟩) ⟨11, .string "WD10".toList⟩ sampleCounts
    rfl
    (hnew _ rfl) (by decide) (by decide) hfresh sampleCounts_nonneg hheld
  have h₂ := hC₂.2.2.1 ⟨30, .string "APPLE SSD (WD10)".toList⟩ (by decide) (by decide)
  ⟨(hC₁.1 rfl).2.2, h₂.2.2.1, h₂.2.2.2.1, h₂.2.2.2.2⟩

end RenameDisk
